/-
A verification development for the pysnirf2 extension layer
(the hand-written classes and interface functions of the repository,
file src/gen/footer.py).

The Python code is shallowly embedded: every class that the development
reasons about becomes a Lean structure holding exactly the fields the
embedded methods read, and every embedded method is a Lean function whose
control flow mirrors the Python source line by line.  Numpy arrays enter
the validation rules only through their shape tuple, so they are embedded
as their shape (a list of dimension sizes); the numpy size attribute is
the product of the dimensions, as in numpy.  Python exceptions become an
explicit error type: a method that can raise returns an Except value, or
a pair of the mutated accumulator and an optional uncaught error when the
source mutates its argument in place before raising.
-/
import Mathlib

set_option autoImplicit false

/-- Diagnostic codes used by the validation rules of the repository.
Only the codes that the embedded rules mention are listed. -/
inductive Code where
  | OK
  | REQUIRED_DATASET_MISSING
  | REQUIRED_GROUP_MISSING
  | OPTIONAL_DATASET_MISSING
  | OPTIONAL_GROUP_MISSING
  | INVALID_DATASET_TYPE
  | INVALID_DATASET_SHAPE
  | INVALID_TIME
  | INVALID_MEASUREMENTLIST
  | INVALID_STIM_DATALABELS
  | INVALID_SOURCE_INDEX
  | INVALID_DETECTOR_INDEX
  | INVALID_WAVELENGTH_INDEX
  | UNRECOGNIZED_COORDINATE_SYSTEM
  | NO_COORDINATE_SYSTEM_DESCRIPTION
  deriving DecidableEq, Repr

/-- Python exceptions that the embedded methods can raise, one constructor
per exception class that appears in the source. -/
inductive PyErr where
  | valueError
  | attributeError
  | keyError
  | indexError
  | closedHandleError
  deriving DecidableEq, Repr

/-- The accumulating validation result: an ordered list of
(location, code) pairs. -/
abbrev ValidationResult : Type := List (String × Code)

/-- The locations already present in a result. -/
def locations (r : ValidationResult) : List String :=
  r.map Prod.fst

/-- Modelled from the spec: the method ValidationResult._add of the
repository is not under src/.  Per the spec (section 4.5 and the source
comment about duplicate names), appending a diagnostic is idempotent per
location: a location that already carries a diagnostic is not re-added,
so the first code recorded at a location wins. -/
def vrAdd (r : ValidationResult) (loc : String) (c : Code) : ValidationResult :=
  if loc ∈ locations r then r else r ++ [(loc, c)]

/-- Fold a list of (location, code) additions into a result, in order.
Used to embed a sequence of _add calls whose contents are a parameter
(for example the base template validation pass, which is not under src/). -/
def vrAddAll (r : ValidationResult) (ps : List (String × Code)) : ValidationResult :=
  ps.foldl (fun acc p => vrAdd acc p.1 p.2) r

/-- The diagnostic recorded at a location: the first (hence, by the
dedup discipline, the only) code at that location. -/
def vrLookup (r : ValidationResult) (loc : String) : Option Code :=
  (r.find? (fun p => p.1 = loc)).map Prod.snd

/-- The number of diagnostics equal to (l, c) in a result, used to state
that a diagnostic is emitted exactly once. -/
def diagCount (r : ValidationResult) (l : String) (c : Code) : Nat :=
  (r.filter (fun p => p = (l, c))).length

/-- An argument that Python type-checks with type(name) is str: either an
actual string or any non-string object. -/
inductive PyName where
  | str (s : String)
  | nonstr
  deriving DecidableEq, Repr

/-- The mutable state of a MetaDataTags instance that add and remove touch:
the instance dictionary written by the line with self.__dict__ in add, and
the list attribute named _unspecified_names.  Tag values are an arbitrary
type V, since the source accepts any value. -/
structure MetaDataTags (V : Type) where
  dict : List (String × V)
  unspecified_names : List String
  deriving DecidableEq, Repr

/-- True when the instance dictionary has an entry for the key, the
membership test that a Python del statement performs before deleting. -/
def dictHasKey {V : Type} (d : List (String × V)) (k : String) : Bool :=
  d.any (fun p => p.1 = k)

/-- Python dict item assignment: replace the value at an existing key in
place, else append the new entry at the end (insertion order preserved). -/
def dictSet {V : Type} (d : List (String × V)) (k : String) (v : V) : List (String × V) :=
  if dictHasKey d k then d.map (fun p => if p.1 = k then (k, v) else p)
  else d ++ [(k, v)]

/-- Python del on a dict key that is present: drop the entry. -/
def dictDel {V : Type} (d : List (String × V)) (k : String) : List (String × V) :=
  d.filter (fun p => ¬ p.1 = k)

/-- Embedding of MetaDataTags.add (source lines 5 to 19).  The source
guards the line assigning self.__dict__[name] with a try block catching
AttributeError, but item assignment on an instance dictionary is a plain
dict store and can never raise AttributeError (the dictionary provably
exists and accepts new keys, since the same statement is what makes adding
custom tags work at all); the except branch raising the message about
required fields such as location is therefore unreachable, and the
embedding is the unconditional dict store followed by the registry update.
A non-string name raises ValueError first, as in the source. -/
def MetaDataTags.add {V : Type} (self : MetaDataTags V) (name : PyName) (value : V) :
    Except PyErr (MetaDataTags V) :=
  match name with
  | .nonstr => .error .valueError
  | .str n =>
      let s1 : MetaDataTags V := { self with dict := dictSet self.dict n value }
      if n ∈ s1.unspecified_names then .ok s1
      else .ok { s1 with unspecified_names := s1.unspecified_names ++ [n] }

/-- Embedding of MetaDataTags.remove (source lines 21 to 31): ValueError
for a non-string name; AttributeError (message: no unspecified tag) when
the name is not in the registry; otherwise a Python del on the instance
dictionary, which raises KeyError when the key has no entry (remove never
shrinks the registry, so this case is reachable after a prior remove). -/
def MetaDataTags.remove {V : Type} (self : MetaDataTags V) (name : PyName) :
    Except PyErr (MetaDataTags V) :=
  match name with
  | .nonstr => .error .valueError
  | .str n =>
      if n ∈ self.unspecified_names then
        if dictHasKey self.dict n then
          .ok { self with dict := dictDel self.dict n }
        else .error .keyError
      else .error .attributeError

/-- One add or remove call in a call sequence. -/
inductive TagOp (V : Type) where
  | add (name : PyName) (value : V)
  | remove (name : PyName)

/-- Run one operation; an operation that raises leaves the state unchanged
(both methods perform all their checks, and the del statement its key
lookup, before mutating anything). -/
def MetaDataTags.runOp {V : Type} (self : MetaDataTags V) (op : TagOp V) : MetaDataTags V :=
  match op with
  | .add n v =>
      match self.add n v with
      | .ok s2 => s2
      | .error _ => self
  | .remove n =>
      match self.remove n with
      | .ok s2 => s2
      | .error _ => self

/-- Run a sequence of add and remove calls. -/
def MetaDataTags.runOps {V : Type} (self : MetaDataTags V) (ops : List (TagOp V)) : MetaDataTags V :=
  ops.foldl MetaDataTags.runOp self

/-- A numpy array as seen by the validation rules: only its shape matters
(every rule reads np.shape, the size attribute, or a dimension of shape). -/
structure NDArray where
  shape : List Nat
  deriving DecidableEq, Repr

/-- The numpy size attribute: the product of the dimensions. -/
def NDArray.size (a : NDArray) : Nat :=
  a.shape.prod

/-- A MeasurementList entry: the location of the entry in the document
tree and the three optional 1-based channel indices (Python integers,
so embedded as Int; absent fields are none). -/
structure MeasurementListEntry where
  location : String
  sourceIndex : Option Int
  detectorIndex : Option Int
  wavelengthIndex : Option Int
  deriving DecidableEq, Repr

/-- A StimElement as read by its _validate override: location, the data
array and the dataLabels array (absent fields are none). -/
structure StimElement where
  location : String
  data : Option NDArray
  dataLabels : Option NDArray
  deriving DecidableEq, Repr

/-- A DataElement as read by its _validate override and by the document
cross-reference pass: location, time vector, series array and the
MeasurementList collection (always a list, possibly empty). -/
structure DataElement where
  location : String
  time : Option NDArray
  dataTimeSeries : Option NDArray
  measurementList : List MeasurementListEntry
  deriving DecidableEq, Repr

/-- A Probe as read by its _validate override and by the document
cross-reference pass.  The position arrays and labels are optional
arrays; the coordinate system name and its description are optional
strings.  The two sentinel absent forms of the source (None and the
absent-dataset marker) are both embedded as none, since every embedded
read only distinguishes present from absent. -/
structure Probe where
  location : String
  sourceLabels : Option NDArray
  detectorLabels : Option NDArray
  wavelengths : Option NDArray
  sourcePos2D : Option NDArray
  detectorPos2D : Option NDArray
  sourcePos3D : Option NDArray
  detectorPos3D : Option NDArray
  coordinateSystem : Option String
  coordinateSystemDescription : Option String
  deriving DecidableEq, Repr

/-- One nirs sub-tree of the document, as read by the cross-reference
pass: the optional Probe (None and the absent-group marker both embed
as none, matching the type test of source line 236) and the Data
collection. -/
structure Nirs where
  probe : Option Probe
  data : List DataElement
  deriving DecidableEq, Repr

/-- Embedding of StimElement._validate.  The call to the base template
pass (super()._validate, whose body is not under src/) is a parameter:
the list of location and code pairs it adds, folded in first exactly as
the source calls it first.  The shape index [1] of the try block is the
optional second dimension; when it is out of range Python raises
IndexError, which the source catches and converts into an
INVALID_DATASET_SHAPE diagnostic at the data location, so the method
never raises. -/
def StimElement.validate (base : List (String × Code)) (e : StimElement)
    (r : ValidationResult) : ValidationResult :=
  let r := vrAddAll r base
  match e.data, e.dataLabels with
  | some d, some dl =>
      match d.shape.get? 1 with
      | some cols =>
          if cols ≠ dl.size then
            vrAdd r (e.location ++ "/dataLabels") .INVALID_STIM_DATALABELS
          else r
      | none => vrAdd r (e.location ++ "/data") .INVALID_DATASET_SHAPE
  | _, _ => r

/-- Embedding of DataElement._validate.  The base template pass runs
first, as in the source.  The two shape reads are not guarded: a shape
with no first or no second dimension raises IndexError, which propagates
to the caller; because the source mutates the result argument in place,
any diagnostic added before the raise stays in the result, so the
embedding returns the accumulated result together with the optional
uncaught error. -/
def DataElement.validate (base : List (String × Code)) (e : DataElement)
    (r : ValidationResult) : ValidationResult × Option PyErr :=
  let r := vrAddAll r base
  match e.time, e.dataTimeSeries with
  | some t, some dts =>
      match dts.shape.get? 0 with
      | none => (r, some .indexError)
      | some rows =>
          let r := if t.size ≠ rows then vrAdd r (e.location ++ "/time") .INVALID_TIME else r
          match dts.shape.get? 1 with
          | none => (r, some .indexError)
          | some cols =>
              let r := if e.measurementList.length ≠ cols then
                  vrAdd r e.location .INVALID_MEASUREMENTLIST else r
              (r, none)
  | _, _ => (r, none)

/-- The sourceLabels block of Probe._validate (source lines 90 to 101):
an absent array yields OPTIONAL_DATASET_MISSING, a present one yields the
code of the external string-array check (parameter slCode). -/
def Probe.labelsBlock (slCode : Code) (p : Probe) (r : ValidationResult) : ValidationResult :=
  match p.sourceLabels with
  | none => vrAdd r (p.location ++ "/sourceLabels") .OPTIONAL_DATASET_MISSING
  | some _ => vrAdd r (p.location ++ "/sourceLabels") slCode

/-- The position-pair block of Probe._validate (source lines 103 to 121),
with the four presence booleans s2, d2, s3, d3 of the source inlined. -/
def Probe.posBlock (p : Probe) (r : ValidationResult) : ValidationResult :=
  if p.sourcePos2D.isSome && p.detectorPos2D.isSome then
    let r := vrAdd r (p.location ++ "/sourcePos2D") .OK
    let r := vrAdd r (p.location ++ "/detectorPos2D") .OK
    let r := vrAdd r (p.location ++ "/sourcePos3D") .OPTIONAL_DATASET_MISSING
    vrAdd r (p.location ++ "/detectorPos3D") .OPTIONAL_DATASET_MISSING
  else if p.sourcePos3D.isSome && p.detectorPos3D.isSome then
    let r := vrAdd r (p.location ++ "/sourcePos2D") .OPTIONAL_DATASET_MISSING
    let r := vrAdd r (p.location ++ "/detectorPos2D") .OPTIONAL_DATASET_MISSING
    let r := vrAdd r (p.location ++ "/sourcePos3D") .OK
    vrAdd r (p.location ++ "/detectorPos3D") .OK
  else
    let r := vrAdd r (p.location ++ "/sourcePos2D")
      (if p.sourcePos2D.isSome then .OK else .REQUIRED_DATASET_MISSING)
    let r := vrAdd r (p.location ++ "/detectorPos2D")
      (if p.detectorPos2D.isSome then .OK else .REQUIRED_DATASET_MISSING)
    let r := vrAdd r (p.location ++ "/sourcePos3D")
      (if p.sourcePos3D.isSome then .OK else .REQUIRED_DATASET_MISSING)
    vrAdd r (p.location ++ "/detectorPos3D")
      (if p.detectorPos3D.isSome then .OK else .REQUIRED_DATASET_MISSING)

/-- The coordinate-system block of Probe._validate (source lines 123 to
127): an unrecognized present name is flagged, and the missing-description
diagnostic is added exactly when the description field is None. -/
def Probe.coordBlock (recognized : List String) (p : Probe) (r : ValidationResult) :
    ValidationResult :=
  match p.coordinateSystem with
  | none => r
  | some cs =>
      if cs ∈ recognized then r
      else
        let r := vrAdd r (p.location ++ "/coordinateSystem") .UNRECOGNIZED_COORDINATE_SYSTEM
        match p.coordinateSystemDescription with
        | none => vrAdd r (p.location ++ "/coordinateSystemDescription")
            .NO_COORDINATE_SYSTEM_DESCRIPTION
        | some _ => r

/-- Embedding of Probe._validate: the sourceLabels block, the position
block and the coordinate block run in source order, and only then the
base template pass (super()._validate, source line 131), so by the
per-location dedup the override codes win, as the source comment states.
Two parts of the source depend on collaborators not under src/ and are
parameters: the code of the string-array check of a present sourceLabels
array (slCode) and the fixed recognized coordinate system name list
(recognized); the base pass is a parameter list of adds. -/
def Probe.validate (recognized : List String) (slCode : Code)
    (base : List (String × Code)) (p : Probe) (r : ValidationResult) : ValidationResult :=
  vrAddAll (Probe.coordBlock recognized p (Probe.posBlock p (Probe.labelsBlock slCode p r))) base

/-- One index bound check of the cross-reference pass: when the index is
present and strictly exceeds the bound, add the code at the given
location. -/
def checkIndex (bound : Nat) (idx : Option Int) (loc : String) (c : Code)
    (r : ValidationResult) : ValidationResult :=
  match idx with
  | none => r
  | some i => if i > (bound : Int) then vrAdd r loc c else r

/-- The three bound checks for one MeasurementList entry, in source
order: sourceIndex, detectorIndex, wavelengthIndex. -/
def mlChecks (lenS lenD lenW : Nat) (ml : MeasurementListEntry)
    (r : ValidationResult) : ValidationResult :=
  let r := checkIndex lenS ml.sourceIndex (ml.location ++ "/sourceIndex")
    .INVALID_SOURCE_INDEX r
  let r := checkIndex lenD ml.detectorIndex (ml.location ++ "/detectorIndex")
    .INVALID_DETECTOR_INDEX r
  checkIndex lenW ml.wavelengthIndex (ml.location ++ "/wavelengthIndex")
    .INVALID_WAVELENGTH_INDEX r

/-- The collection bounds the pass derives from a present Probe:
sourceLabels contributes its first dimension (shape index [0], an
IndexError when the shape is empty), detectorLabels and wavelengths
contribute their size; an absent array counts as 0. -/
def probeLens (p : Probe) : Except PyErr (Nat × Nat × Nat) :=
  match p.sourceLabels with
  | none => .ok (0,
      (match p.detectorLabels with | none => 0 | some a => a.size),
      (match p.wavelengths with | none => 0 | some a => a.size))
  | some a =>
      match a.shape.get? 0 with
      | none => .error .indexError
      | some n => .ok (n,
          (match p.detectorLabels with | none => 0 | some a => a.size),
          (match p.wavelengths with | none => 0 | some a => a.size))

/-- The per-nirs body of the cross-reference loop: skip the nirs when its
probe is absent, else derive the three bounds and check every entry of
every Data element, in order. -/
def nirsCrossCheck (n : Nirs) (r : ValidationResult) : Except PyErr ValidationResult :=
  match n.probe with
  | none => .ok r
  | some p =>
      match probeLens p with
      | .error e => .error e
      | .ok (lenS, lenD, lenW) =>
          .ok (n.data.foldl
            (fun r d => d.measurementList.foldl (fun r ml => mlChecks lenS lenD lenW ml r) r)
            r)

/-- Embedding of the overridden Snirf._validate: the base template pass
(super()._validate, not under src/) runs first as a parameter, then the
cross-reference loop over the nirs collections. -/
def Snirf.validate (base : List (String × Code)) (nirs : List Nirs)
    (r : ValidationResult) : Except PyErr ValidationResult :=
  let r := vrAddAll r base
  nirs.foldlM (fun r n => nirsCrossCheck n r) r

/-- The backing store handle of a Snirf document.  The source keeps an
empty dict in self._h when no backend is attached, an h5py file object
when one is open, and the same object in a closed state after close. -/
inductive Backend (V : Type) where
  | unset
  | opened (entries : List (String × V))
  | closed
  deriving DecidableEq, Repr

/-- Embedding of Snirf.__getitem__.  The source tests self._h against the
empty dict; with a backend attached (open or closed) the test is true and
the key membership test runs, otherwise the method returns None.  With an
open backend a contained key returns the entry and a missing key falls
off the end of the method, which in Python returns None.  Modelled from
the spec for the parts outside src/: the backend is an external
collaborator and after close every access to the handle fails fast
(resource model section of the spec), so the membership test on a closed
handle raises rather than answering. -/
def Snirf.getitem {V : Type} (h : Backend V) (key : String) : Except PyErr (Option V) :=
  match h with
  | .unset => .ok none
  | .closed => .error .closedHandleError
  | .opened es =>
      if (es.map Prod.fst).contains key then
        match es.lookup key with
        | some v => .ok (some v)
        | none => .error .keyError
      else .ok none

/-- Concatenation of the images of a list under a list-valued function. -/
def catMaps {α β : Type} (f : α → List β) : List α → List β
  | [] => []
  | x :: xs => f x ++ catMaps f xs

/-- The diagnostic fired by one index bound check: a singleton when the
index is present and strictly exceeds the bound, else nothing. -/
def idxPair (bound : Nat) (idx : Option Int) (loc : String) (c : Code) :
    List (String × Code) :=
  match idx with
  | none => []
  | some i => if i > (bound : Int) then [(loc, c)] else []

/-- The three potential diagnostic sites of one MeasurementList entry, in
check order. -/
def mlLocs (ml : MeasurementListEntry) : List String :=
  [ml.location ++ "/sourceIndex", ml.location ++ "/detectorIndex",
   ml.location ++ "/wavelengthIndex"]

/-- The diagnostics fired for one MeasurementList entry. -/
def mlPairs (lenS lenD lenW : Nat) (ml : MeasurementListEntry) :
    List (String × Code) :=
  idxPair lenS ml.sourceIndex (ml.location ++ "/sourceIndex") .INVALID_SOURCE_INDEX ++
  idxPair lenD ml.detectorIndex (ml.location ++ "/detectorIndex") .INVALID_DETECTOR_INDEX ++
  idxPair lenW ml.wavelengthIndex (ml.location ++ "/wavelengthIndex") .INVALID_WAVELENGTH_INDEX

/-- All potential diagnostic sites of one nirs sub-tree (none when its
probe is absent, since the pass skips it). -/
def nirsLocs (n : Nirs) : List String :=
  match n.probe with
  | none => []
  | some _ => catMaps (fun d => catMaps mlLocs d.measurementList) n.data

/-- The diagnostics fired for one nirs sub-tree. -/
def nirsPairs (n : Nirs) : List (String × Code) :=
  match n.probe with
  | none => []
  | some p =>
      match probeLens p with
      | .error _ => []
      | .ok (lenS, lenD, lenW) =>
          catMaps (fun d => catMaps (mlPairs lenS lenD lenW) d.measurementList) n.data

/-- All potential diagnostic sites of the cross-reference pass. -/
def docLocs (ns : List Nirs) : List String :=
  catMaps nirsLocs ns

/-- All diagnostics fired by the cross-reference pass. -/
def docPairs (ns : List Nirs) : List (String × Code) :=
  catMaps nirsPairs ns

/-- The diagnostic added by the sourceLabels block. -/
def probeSlPair (slCode : Code) (p : Probe) : List (String × Code) :=
  match p.sourceLabels with
  | none => [(p.location ++ "/sourceLabels", .OPTIONAL_DATASET_MISSING)]
  | some _ => [(p.location ++ "/sourceLabels", slCode)]

/-- The diagnostics added by the position block, per branch. -/
def probePosPairs (p : Probe) : List (String × Code) :=
  if p.sourcePos2D.isSome && p.detectorPos2D.isSome then
    [(p.location ++ "/sourcePos2D", .OK), (p.location ++ "/detectorPos2D", .OK),
     (p.location ++ "/sourcePos3D", .OPTIONAL_DATASET_MISSING),
     (p.location ++ "/detectorPos3D", .OPTIONAL_DATASET_MISSING)]
  else if p.sourcePos3D.isSome && p.detectorPos3D.isSome then
    [(p.location ++ "/sourcePos2D", .OPTIONAL_DATASET_MISSING),
     (p.location ++ "/detectorPos2D", .OPTIONAL_DATASET_MISSING),
     (p.location ++ "/sourcePos3D", .OK), (p.location ++ "/detectorPos3D", .OK)]
  else
    [(p.location ++ "/sourcePos2D",
        if p.sourcePos2D.isSome then .OK else .REQUIRED_DATASET_MISSING),
     (p.location ++ "/detectorPos2D",
        if p.detectorPos2D.isSome then .OK else .REQUIRED_DATASET_MISSING),
     (p.location ++ "/sourcePos3D",
        if p.sourcePos3D.isSome then .OK else .REQUIRED_DATASET_MISSING),
     (p.location ++ "/detectorPos3D",
        if p.detectorPos3D.isSome then .OK else .REQUIRED_DATASET_MISSING)]

/-- The diagnostics added by the coordinate block. -/
def probeCoordPairs (recognized : List String) (p : Probe) : List (String × Code) :=
  match p.coordinateSystem with
  | none => []
  | some cs =>
      if cs ∈ recognized then []
      else
        (p.location ++ "/coordinateSystem", Code.UNRECOGNIZED_COORDINATE_SYSTEM) ::
          (match p.coordinateSystemDescription with
           | none => [(p.location ++ "/coordinateSystemDescription",
               Code.NO_COORDINATE_SYSTEM_DESCRIPTION)]
           | some _ => [])

/-- All diagnostics the Probe override adds, in add order. -/
def probePairs (recognized : List String) (slCode : Code) (p : Probe) :
    List (String × Code) :=
  probeSlPair slCode p ++ probePosPairs p ++ probeCoordPairs recognized p

/-- Modelled from the spec (section 4.5): the base template structural
pass and the string-array check emit only presence and well-formedness
codes; OK is emitted only for fields with non-trivial presence policy.
In particular neither ever emits the two coordinate-system codes, which
only the Probe-specific rule produces. -/
def Code.isStructural : Code → Bool
  | .OK => true
  | .REQUIRED_DATASET_MISSING => true
  | .REQUIRED_GROUP_MISSING => true
  | .OPTIONAL_DATASET_MISSING => true
  | .OPTIONAL_GROUP_MISSING => true
  | .INVALID_DATASET_TYPE => true
  | .INVALID_DATASET_SHAPE => true
  | _ => false

theorem locations_vrAdd (r : ValidationResult) (loc : String) (c : Code) :
    locations (vrAdd r loc c) = if loc ∈ locations r then locations r else locations r ++ [loc] := by
  unfold vrAdd
  split
  · rfl
  · unfold locations
    simp

theorem mem_locations_vrAdd_of_mem (r : ValidationResult) (loc l : String) (c : Code)
    (h : l ∈ locations r) : l ∈ locations (vrAdd r loc c) := by
  rw [locations_vrAdd]
  split
  · exact h
  · exact List.mem_append_left _ h

theorem not_mem_locations_vrAdd (r : ValidationResult) (loc l : String) (c : Code)
    (hl : l ∉ locations r) (hne : l ≠ loc) : l ∉ locations (vrAdd r loc c) := by
  rw [locations_vrAdd]
  split
  · exact hl
  · intro hmem
    rcases List.mem_append.1 hmem with h | h
    · exact hl h
    · simp at h
      exact hne h

theorem mem_vrAdd_of_mem (r : ValidationResult) (loc l : String) (c c0 : Code)
    (h : (l, c0) ∈ r) : (l, c0) ∈ vrAdd r loc c := by
  unfold vrAdd
  split
  · exact h
  · exact List.mem_append_left _ h

theorem mem_locations_of_mem (r : ValidationResult) (l : String) (c : Code)
    (h : (l, c) ∈ r) : l ∈ locations r := by
  unfold locations
  exact List.mem_map.2 ⟨(l, c), h, rfl⟩

theorem mem_vrAdd_self (r : ValidationResult) (loc : String) (c : Code)
    (h : loc ∉ locations r) : (loc, c) ∈ vrAdd r loc c := by
  unfold vrAdd
  rw [if_neg h]
  exact List.mem_append_right _ (List.mem_singleton.2 rfl)

theorem mem_vrAdd_iff (r : ValidationResult) (loc l : String) (c c0 : Code) :
    (l, c0) ∈ vrAdd r loc c ↔ (l, c0) ∈ r ∨ (l = loc ∧ c0 = c ∧ loc ∉ locations r) := by
  unfold vrAdd
  split
  · rename_i hmem
    constructor
    · intro h
      exact Or.inl h
    · rintro (h | ⟨h1, h2, h3⟩)
      · exact h
      · exact absurd hmem h3
  · rename_i hmem
    constructor
    · intro h
      rcases List.mem_append.1 h with h | h
      · exact Or.inl h
      · simp at h
        exact Or.inr ⟨h.1, h.2, hmem⟩
    · rintro (h | ⟨h1, h2, h3⟩)
      · exact List.mem_append_left _ h
      · subst h1
        subst h2
        exact List.mem_append_right _ (List.mem_singleton.2 rfl)

theorem mem_vrAddAll_of_mem (ps : List (String × Code)) (r : ValidationResult)
    (l : String) (c : Code) (h : (l, c) ∈ r) : (l, c) ∈ vrAddAll r ps := by
  induction ps generalizing r with
  | nil => exact h
  | cons p ps ih =>
      exact ih _ (mem_vrAdd_of_mem r p.1 l p.2 c h)

theorem mem_locations_vrAddAll_of_mem (ps : List (String × Code)) (r : ValidationResult)
    (l : String) (h : l ∈ locations r) : l ∈ locations (vrAddAll r ps) := by
  induction ps generalizing r with
  | nil => exact h
  | cons p ps ih =>
      exact ih _ (mem_locations_vrAdd_of_mem r p.1 l p.2 h)

theorem not_mem_locations_vrAddAll (ps : List (String × Code)) (r : ValidationResult)
    (l : String) (hl : l ∉ locations r) (hp : ∀ p ∈ ps, l ≠ p.1) :
    l ∉ locations (vrAddAll r ps) := by
  induction ps generalizing r with
  | nil => exact hl
  | cons p ps ih =>
      refine ih _ (not_mem_locations_vrAdd r p.1 l p.2 hl ?_) ?_
      · exact hp p (List.mem_cons_self _ _)
      · intro q hq
        exact hp q (List.mem_cons_of_mem _ hq)

theorem mem_vrAddAll_iff (ps : List (String × Code)) (r : ValidationResult)
    (l : String) (c : Code) (hfresh : l ∉ locations r) :
    (l, c) ∈ vrAddAll r ps ↔ ps.find? (fun p => p.1 = l) = some (l, c) := by
  induction ps generalizing r with
  | nil =>
      simp only [vrAddAll, List.foldl_nil, List.find?_nil]
      constructor
      · intro h
        exact absurd (mem_locations_of_mem r l c h) hfresh
      · intro h
        cases h
  | cons p ps ih =>
      by_cases hp : p.1 = l
      · subst hp
        rw [List.find?_cons_of_pos _ (by simp)]
        constructor
        · intro hmem
          by_cases hc : c = p.2
          · subst hc
            rfl
          · exfalso
            have hmemAdd : (p.1, c) ∈ vrAdd r p.1 p.2 ↔ False := by
              rw [mem_vrAdd_iff]
              constructor
              · rintro (h | ⟨h1, h2, h3⟩)
                · exact hfresh (mem_locations_of_mem r p.1 c h)
                · exact hc h2
              · intro h
                cases h
            have hflocs : p.1 ∈ locations (vrAdd r p.1 p.2) := by
              rw [locations_vrAdd, if_neg hfresh]
              exact List.mem_append_right _ (List.mem_singleton.2 rfl)
            -- membership of (p.1, c) in the fold over ps starting from vrAdd r p.1 p.2
            -- would require (p.1, c) in the start or a fresh add at p.1, both impossible
            have : ∀ (qs : List (String × Code)) (r0 : ValidationResult),
                p.1 ∈ locations r0 → (p.1, c) ∉ r0 → (p.1, c) ∉ vrAddAll r0 qs := by
              intro qs
              induction qs with
              | nil => intro r0 h1 h2; exact h2
              | cons q qs ihq =>
                  intro r0 h1 h2
                  refine ihq _ (mem_locations_vrAdd_of_mem r0 q.1 p.1 q.2 h1) ?_
                  rw [mem_vrAdd_iff]
                  rintro (h | ⟨hh1, hh2, hh3⟩)
                  · exact h2 h
                  · exact hh3 (hh1 ▸ h1)
            exact this ps (vrAdd r p.1 p.2) hflocs (fun h => (hmemAdd.1 h)) hmem
        · intro heq
          have hc : c = p.2 := by
            have := heq
            injection this with h1
            exact (congrArg Prod.snd h1).symm ▸ rfl
          subst hc
          exact mem_vrAddAll_of_mem ps _ p.1 p.2 (mem_vrAdd_self r p.1 p.2 hfresh)
      · rw [List.find?_cons_of_neg _ (by simp [hp])]
        have hfresh2 : l ∉ locations (vrAdd r p.1 p.2) :=
          not_mem_locations_vrAdd r p.1 l p.2 hfresh (fun h => hp h.symm)
        exact ih _ hfresh2

theorem strCancelLeft {l a b : String} (h : l ++ a = l ++ b) : a = b := by
  have h2 : l.data ++ a.data = l.data ++ b.data := congrArg String.data h
  exact String.ext (List.append_cancel_left h2)

theorem strSuffixNe (l : String) {a b : String} (h : a ≠ b) : l ++ a ≠ l ++ b := by
  intro heq
  exact h (strCancelLeft heq)

theorem find?_loc_eq_none (r : ValidationResult) (l : String) (h : l ∉ locations r) :
    r.find? (fun p => p.1 = l) = none := by
  rw [List.find?_eq_none]
  intro p hp
  simp only [decide_eq_true_eq]
  intro hpl
  exact h (hpl ▸ mem_locations_of_mem r p.1 p.2 hp)

theorem vrLookup_eq_none (r : ValidationResult) (l : String) (h : l ∉ locations r) :
    vrLookup r l = none := by
  unfold vrLookup
  rw [find?_loc_eq_none r l h]
  rfl

theorem vrLookup_vrAdd_self (r : ValidationResult) (loc : String) (c : Code)
    (h : loc ∉ locations r) : vrLookup (vrAdd r loc c) loc = some c := by
  unfold vrAdd
  rw [if_neg h]
  unfold vrLookup
  rw [List.find?_append, find?_loc_eq_none r loc h]
  simp [List.find?]

theorem vrLookup_vrAdd_of_ne (r : ValidationResult) (loc l : String) (c : Code)
    (hne : l ≠ loc) : vrLookup (vrAdd r loc c) l = vrLookup r l := by
  unfold vrAdd
  split
  · rfl
  · unfold vrLookup
    rw [List.find?_append]
    have : List.find? (fun p => p.1 = l) [(loc, c)] = none := by
      rw [List.find?_eq_none]
      intro p hp
      simp only [List.mem_singleton] at hp
      subst hp
      simp only [decide_eq_true_eq]
      exact fun h => hne h.symm
    rw [this]
    cases List.find? (fun p => p.1 = l) r with
    | none => rfl
    | some p => rfl

theorem vrLookup_vrAddAll_of_some (ps : List (String × Code)) (r : ValidationResult)
    (l : String) (c : Code) (h : vrLookup r l = some c) :
    vrLookup (vrAddAll r ps) l = some c := by
  induction ps generalizing r with
  | nil => exact h
  | cons p ps ih =>
      refine ih _ ?_
      show vrLookup (vrAdd r p.1 p.2) l = some c
      by_cases hpl : l = p.1
      · have hmem : l ∈ locations r := by
          by_contra hno
          rw [vrLookup_eq_none r l hno] at h
          cases h
        unfold vrAdd
        rw [if_pos (hpl ▸ hmem)]
        exact h
      · rw [vrLookup_vrAdd_of_ne r p.1 l p.2 hpl]
        exact h

theorem nodup_locations_vrAdd (r : ValidationResult) (loc : String) (c : Code)
    (h : (locations r).Nodup) : (locations (vrAdd r loc c)).Nodup := by
  rw [locations_vrAdd]
  split
  · exact h
  · rename_i hmem
    rw [List.nodup_append]
    exact ⟨h, List.nodup_singleton loc, by simpa using fun hx => hmem hx⟩

theorem nodup_locations_vrAddAll (ps : List (String × Code)) (r : ValidationResult)
    (h : (locations r).Nodup) : (locations (vrAddAll r ps)).Nodup := by
  induction ps generalizing r with
  | nil => exact h
  | cons p ps ih => exact ih _ (nodup_locations_vrAdd r p.1 p.2 h)

theorem diagCount_eq_zero (r : ValidationResult) (l : String) (c : Code)
    (h : (l, c) ∉ r) : diagCount r l c = 0 := by
  unfold diagCount
  rw [List.length_eq_zero]
  rw [List.filter_eq_nil_iff]
  intro p hp
  simp only [decide_eq_true_eq]
  intro hpe
  exact h (hpe ▸ hp)

theorem diagCount_eq_one (r : ValidationResult) (l : String) (c : Code)
    (hnd : (locations r).Nodup) (hmem : (l, c) ∈ r) : diagCount r l c = 1 := by
  induction r with
  | nil => cases hmem
  | cons q r ih =>
      have hnd2 : (locations r).Nodup := (List.nodup_cons.1 hnd).2
      have hq : q.1 ∉ locations r := (List.nodup_cons.1 hnd).1
      rcases List.mem_cons.1 hmem with hqe | hmem2
      · unfold diagCount
        rw [List.filter_cons_of_pos (by simp [hqe.symm])]
        simp only [List.length_cons, Nat.add_left_eq_self, Nat.succ_eq_add_one]
        have : (l, c) ∉ r := by
          intro hin
          exact hq (hqe ▸ mem_locations_of_mem r l c hin)
        have h0 := diagCount_eq_zero r l c this
        unfold diagCount at h0
        simp [h0]
      · have hqne : q ≠ (l, c) := by
          intro hqe
          have : l ∈ locations r := mem_locations_of_mem r l c hmem2
          exact hq (by rw [hqe]; exact this)
        unfold diagCount
        rw [List.filter_cons_of_neg (by simp [hqne])]
        exact ih hnd2 hmem2

/-- A successful add never removes registry entries. -/
theorem registry_mono_add {V : Type} (s : MetaDataTags V) (name : PyName) (v : V)
    (s2 : MetaDataTags V) (h : s.add name v = .ok s2) :
    ∀ m ∈ s.unspecified_names, m ∈ s2.unspecified_names := by
  intro m hm
  unfold MetaDataTags.add at h
  cases name with
  | nonstr => cases h
  | str n =>
      simp only at h
      split at h
      · cases h
        exact hm
      · cases h
        exact List.mem_append_left _ hm

/-- A successful remove never removes registry entries. -/
theorem registry_mono_remove {V : Type} (s : MetaDataTags V) (name : PyName)
    (s2 : MetaDataTags V) (h : s.remove name = .ok s2) :
    ∀ m ∈ s.unspecified_names, m ∈ s2.unspecified_names := by
  intro m hm
  unfold MetaDataTags.remove at h
  cases name with
  | nonstr => cases h
  | str n =>
      simp only at h
      split at h
      · split at h
        · cases h
          exact hm
        · cases h
      · cases h

theorem registry_mono_runOp {V : Type} (s : MetaDataTags V) (op : TagOp V) :
    ∀ m ∈ s.unspecified_names, m ∈ (s.runOp op).unspecified_names := by
  intro m hm
  cases op with
  | add n v =>
      rw [MetaDataTags.runOp]
      cases hadd : s.add n v with
      | ok s2 => exact registry_mono_add s n v s2 hadd m hm
      | error e => exact hm
  | remove n =>
      rw [MetaDataTags.runOp]
      cases hrem : s.remove n with
      | ok s2 => exact registry_mono_remove s n s2 hrem m hm
      | error e => exact hm

theorem mem_catMaps {α β : Type} (f : α → List β) (xs : List α) (b : β) :
    b ∈ catMaps f xs ↔ ∃ x ∈ xs, b ∈ f x := by
  induction xs with
  | nil => simp [catMaps]
  | cons x xs ih =>
      simp only [catMaps, List.mem_append, ih, List.mem_cons]
      constructor
      · rintro (h | ⟨y, hy, hb⟩)
        · exact ⟨x, Or.inl rfl, h⟩
        · exact ⟨y, Or.inr hy, hb⟩
      · rintro ⟨y, hy | hy, hb⟩
        · exact Or.inl (hy ▸ hb)
        · exact Or.inr ⟨y, hy, hb⟩

theorem nodup_catMaps_each {α β : Type} (f : α → List β) (xs : List α)
    (hnd : (catMaps f xs).Nodup) : ∀ x ∈ xs, (f x).Nodup := by
  induction xs with
  | nil => intro x hx; cases hx
  | cons y xs ih =>
      intro x hx
      rw [catMaps, List.nodup_append] at hnd
      rcases List.mem_cons.1 hx with h | h
      · exact h ▸ hnd.1
      · exact ih hnd.2.1 x h

theorem nodup_catMaps_unique {α β : Type} (f : α → List β) (xs : List α)
    (hnd : (catMaps f xs).Nodup) (x y : α) (hx : x ∈ xs) (hy : y ∈ xs)
    (b : β) (hbx : b ∈ f x) (hby : b ∈ f y) : x = y := by
  induction xs with
  | nil => cases hx
  | cons z xs ih =>
      rw [catMaps, List.nodup_append] at hnd
      rcases List.mem_cons.1 hx with h1 | h1 <;> rcases List.mem_cons.1 hy with h2 | h2
      · rw [h1, h2]
      · exfalso
        exact hnd.2.2 (h1 ▸ hbx) ((mem_catMaps f xs b).2 ⟨y, h2, hby⟩)
      · exfalso
        exact hnd.2.2 (h2 ▸ hby) ((mem_catMaps f xs b).2 ⟨x, h1, hbx⟩)
      · exact ih hnd.2.1 h1 h2

theorem catMaps_sublist {α β : Type} (f g : α → List β) (xs : List α)
    (h : ∀ x, List.Sublist (f x) (g x)) :
    List.Sublist (catMaps f xs) (catMaps g xs) := by
  induction xs with
  | nil => exact List.Sublist.refl _
  | cons x xs ih => exact List.Sublist.append (h x) ih

theorem map_fst_catMaps {α : Type} (f : α → List (String × Code)) (xs : List α) :
    (catMaps f xs).map Prod.fst = catMaps (fun x => (f x).map Prod.fst) xs := by
  induction xs with
  | nil => rfl
  | cons x xs ih => simp [catMaps, ih]

/-- A fold whose every step is a vrAddAll of a step-computed pair list is
the vrAddAll of the concatenation. -/
theorem foldl_eq_vrAddAll {α : Type} (g : ValidationResult → α → ValidationResult)
    (h : α → List (String × Code)) (hstep : ∀ r x, g r x = vrAddAll r (h x)) :
    ∀ (xs : List α) (r : ValidationResult), xs.foldl g r = vrAddAll r (catMaps h xs) := by
  intro xs
  induction xs with
  | nil => intro r; rfl
  | cons x xs ih =>
      intro r
      rw [List.foldl_cons, hstep, ih, catMaps]
      unfold vrAddAll
      rw [List.foldl_append]

theorem vrAddAll_append (r : ValidationResult) (a b : List (String × Code)) :
    vrAddAll r (a ++ b) = vrAddAll (vrAddAll r a) b := by
  unfold vrAddAll
  rw [List.foldl_append]

/-- find? on a pair list whose first components are distinct returns the
member with the sought first component. -/
theorem find?_of_mem_nodup (ps : List (String × Code)) (l : String) (c : Code)
    (hnd : (ps.map Prod.fst).Nodup) (hmem : (l, c) ∈ ps) :
    ps.find? (fun p => p.1 = l) = some (l, c) := by
  induction ps with
  | nil => cases hmem
  | cons p ps ih =>
      rcases List.mem_cons.1 hmem with h | h
      · rw [← h]
        exact List.find?_cons_of_pos _ (by simp)
      · have hpl : p.1 ≠ l := by
          intro he
          have : l ∈ ps.map Prod.fst := List.mem_map.2 ⟨(l, c), h, rfl⟩
          rw [List.map_cons, List.nodup_cons] at hnd
          exact hnd.1 (he ▸ this)
        rw [List.find?_cons_of_neg _ (by simp [hpl])]
        rw [List.map_cons, List.nodup_cons] at hnd
        exact ih hnd.2 h

theorem find?_none_of_all_ne (ps : List (String × Code)) (l : String)
    (h : ∀ pr ∈ ps, pr.1 ≠ l) : ps.find? (fun p => p.1 = l) = none := by
  rw [List.find?_eq_none]
  intro p hp
  simp only [decide_eq_true_eq]
  exact h p hp

theorem checkIndex_eq (bound : Nat) (idx : Option Int) (loc : String) (c : Code)
    (r : ValidationResult) :
    checkIndex bound idx loc c r = vrAddAll r (idxPair bound idx loc c) := by
  unfold checkIndex idxPair
  cases idx with
  | none => rfl
  | some i =>
      show (if i > (bound : Int) then vrAdd r loc c else r) =
        vrAddAll r (if i > (bound : Int) then [(loc, c)] else [])
      by_cases hi : i > (bound : Int)
      · rw [if_pos hi, if_pos hi]
        rfl
      · rw [if_neg hi, if_neg hi]
        rfl

theorem mlChecks_eq (lenS lenD lenW : Nat) (ml : MeasurementListEntry)
    (r : ValidationResult) :
    mlChecks lenS lenD lenW ml r = vrAddAll r (mlPairs lenS lenD lenW ml) := by
  unfold mlChecks mlPairs
  rw [checkIndex_eq, checkIndex_eq, checkIndex_eq, vrAddAll_append, vrAddAll_append]

theorem nirsCrossCheck_ok_eq (n : Nirs) (r out : ValidationResult)
    (h : nirsCrossCheck n r = .ok out) : out = vrAddAll r (nirsPairs n) := by
  unfold nirsCrossCheck at h
  split at h
  · rename_i hp
    cases h
    simp only [nirsPairs, hp]
    rfl
  · rename_i p hp
    split at h
    · cases h
    · rename_i lenS lenD lenW hl
      cases h
      simp only [nirsPairs, hp, hl]
      exact foldl_eq_vrAddAll _ _
        (fun r d => foldl_eq_vrAddAll _ _ (fun r ml => mlChecks_eq lenS lenD lenW ml r)
          d.measurementList r)
        n.data r

theorem snirf_validate_ok_eq (base : List (String × Code)) (ns : List Nirs)
    (r out : ValidationResult) (h : Snirf.validate base ns r = .ok out) :
    out = vrAddAll r (base ++ docPairs ns) := by
  rw [vrAddAll_append]
  unfold Snirf.validate at h
  revert h
  generalize vrAddAll r base = r0
  intro h
  induction ns generalizing r0 with
  | nil =>
      rw [List.foldlM_nil] at h
      cases h
      rfl
  | cons n ns ih =>
      rw [List.foldlM_cons] at h
      cases hc : nirsCrossCheck n r0 with
      | error e =>
          rw [hc] at h
          cases h
      | ok r1 =>
          rw [hc] at h
          have hgoal : vrAddAll r0 (docPairs (n :: ns)) =
              vrAddAll (vrAddAll r0 (nirsPairs n)) (docPairs ns) := by
            show vrAddAll r0 (nirsPairs n ++ docPairs ns) = _
            exact vrAddAll_append r0 _ _
          rw [hgoal, ← nirsCrossCheck_ok_eq n r0 r1 hc]
          exact ih r1 h

theorem mem_idxPair_elim (bound : Nat) (idx : Option Int) (loc : String) (c : Code)
    (pr : String × Code) (h : pr ∈ idxPair bound idx loc c) :
    ∃ i, idx = some i ∧ i > (bound : Int) ∧ pr = (loc, c) := by
  cases idx with
  | none => cases h
  | some i =>
      simp only [idxPair] at h
      by_cases hi : i > (bound : Int)
      · rw [if_pos hi] at h
        exact ⟨i, rfl, hi, List.mem_singleton.1 h⟩
      · rw [if_neg hi] at h
        cases h

theorem mem_idxPair_intro (bound : Nat) (i : Int) (loc : String) (c : Code)
    (hi : i > (bound : Int)) : (loc, c) ∈ idxPair bound (some i) loc c := by
  simp only [idxPair]
  rw [if_pos hi]
  exact List.mem_singleton.2 rfl

theorem mem_mlPairs_elim (lenS lenD lenW : Nat) (ml : MeasurementListEntry)
    (pr : String × Code) (h : pr ∈ mlPairs lenS lenD lenW ml) :
    (∃ i, ml.sourceIndex = some i ∧ i > (lenS : Int) ∧
      pr = (ml.location ++ "/sourceIndex", Code.INVALID_SOURCE_INDEX)) ∨
    (∃ i, ml.detectorIndex = some i ∧ i > (lenD : Int) ∧
      pr = (ml.location ++ "/detectorIndex", Code.INVALID_DETECTOR_INDEX)) ∨
    (∃ i, ml.wavelengthIndex = some i ∧ i > (lenW : Int) ∧
      pr = (ml.location ++ "/wavelengthIndex", Code.INVALID_WAVELENGTH_INDEX)) := by
  unfold mlPairs at h
  rcases List.mem_append.1 h with h1 | h1
  · rcases List.mem_append.1 h1 with h2 | h2
    · exact Or.inl (mem_idxPair_elim _ _ _ _ _ h2)
    · exact Or.inr (Or.inl (mem_idxPair_elim _ _ _ _ _ h2))
  · exact Or.inr (Or.inr (mem_idxPair_elim _ _ _ _ _ h1))

theorem mlPairs_locs (lenS lenD lenW : Nat) (ml : MeasurementListEntry)
    (pr : String × Code) (h : pr ∈ mlPairs lenS lenD lenW ml) : pr.1 ∈ mlLocs ml := by
  rcases mem_mlPairs_elim lenS lenD lenW ml pr h with ⟨i, h1, h2, h3⟩ | ⟨i, h1, h2, h3⟩ | ⟨i, h1, h2, h3⟩ <;>
    simp [mlLocs, h3]

theorem map_fst_idxPair_sublist (bound : Nat) (idx : Option Int) (loc : String) (c : Code) :
    List.Sublist ((idxPair bound idx loc c).map Prod.fst) [loc] := by
  cases idx with
  | none => exact List.nil_sublist _
  | some i =>
      simp only [idxPair]
      by_cases hi : i > (bound : Int)
      · rw [if_pos hi]
        exact List.Sublist.refl _
      · rw [if_neg hi]
        exact List.nil_sublist _

theorem map_fst_mlPairs_sublist (lenS lenD lenW : Nat) (ml : MeasurementListEntry) :
    List.Sublist ((mlPairs lenS lenD lenW ml).map Prod.fst) (mlLocs ml) := by
  unfold mlPairs mlLocs
  rw [List.map_append, List.map_append, List.append_assoc]
  have h1 := map_fst_idxPair_sublist lenS ml.sourceIndex
    (ml.location ++ "/sourceIndex") .INVALID_SOURCE_INDEX
  have h2 := map_fst_idxPair_sublist lenD ml.detectorIndex
    (ml.location ++ "/detectorIndex") .INVALID_DETECTOR_INDEX
  have h3 := map_fst_idxPair_sublist lenW ml.wavelengthIndex
    (ml.location ++ "/wavelengthIndex") .INVALID_WAVELENGTH_INDEX
  show List.Sublist _ ([ml.location ++ "/sourceIndex"] ++
    ([ml.location ++ "/detectorIndex"] ++ [ml.location ++ "/wavelengthIndex"]))
  exact List.Sublist.append h1 (List.Sublist.append h2 h3)

theorem map_fst_nirsPairs_sublist (n : Nirs) :
    List.Sublist ((nirsPairs n).map Prod.fst) (nirsLocs n) := by
  cases hp : n.probe with
  | none =>
      simp only [nirsPairs, nirsLocs, hp]
      exact List.nil_sublist _
  | some p =>
      cases hl : probeLens p with
      | error e =>
          simp only [nirsPairs, nirsLocs, hp, hl]
          exact List.nil_sublist _
      | ok lens =>
          obtain ⟨lenS, lenD, lenW⟩ := lens
          simp only [nirsPairs, nirsLocs, hp, hl]
          rw [map_fst_catMaps]
          refine catMaps_sublist _ _ n.data (fun d => ?_)
          rw [map_fst_catMaps]
          exact catMaps_sublist _ _ d.measurementList
            (fun ml => map_fst_mlPairs_sublist lenS lenD lenW ml)

theorem map_fst_docPairs_sublist (ns : List Nirs) :
    List.Sublist ((docPairs ns).map Prod.fst) (docLocs ns) := by
  unfold docPairs docLocs
  rw [map_fst_catMaps]
  exact catMaps_sublist _ _ ns (fun n => map_fst_nirsPairs_sublist n)

theorem mem_nirsLocs_intro (n : Nirs) (p : Probe) (hp : n.probe = some p)
    (d : DataElement) (hd : d ∈ n.data) (ml : MeasurementListEntry)
    (hml : ml ∈ d.measurementList) (l : String) (hl : l ∈ mlLocs ml) :
    l ∈ nirsLocs n := by
  simp only [nirsLocs, hp]
  exact (mem_catMaps _ _ _).2 ⟨d, hd, (mem_catMaps _ _ _).2 ⟨ml, hml, hl⟩⟩

theorem mem_docLocs_intro (ns : List Nirs) (n : Nirs) (hn : n ∈ ns) (p : Probe)
    (hp : n.probe = some p) (d : DataElement) (hd : d ∈ n.data)
    (ml : MeasurementListEntry) (hml : ml ∈ d.measurementList) (l : String)
    (hl : l ∈ mlLocs ml) : l ∈ docLocs ns :=
  (mem_catMaps _ _ _).2 ⟨n, hn, mem_nirsLocs_intro n p hp d hd ml hml l hl⟩

theorem mem_docPairs_intro (ns : List Nirs) (n : Nirs) (hn : n ∈ ns) (p : Probe)
    (hp : n.probe = some p) (lenS lenD lenW : Nat)
    (hl : probeLens p = .ok (lenS, lenD, lenW)) (d : DataElement) (hd : d ∈ n.data)
    (ml : MeasurementListEntry) (hml : ml ∈ d.measurementList) (pr : String × Code)
    (hpr : pr ∈ mlPairs lenS lenD lenW ml) : pr ∈ docPairs ns := by
  refine (mem_catMaps _ _ _).2 ⟨n, hn, ?_⟩
  simp only [nirsPairs, hp, hl]
  exact (mem_catMaps _ _ _).2 ⟨d, hd, (mem_catMaps _ _ _).2 ⟨ml, hml, hpr⟩⟩

/-- Inversion: under distinct sites, a fired pair whose location is a
site of a given entry was fired by that entry, with the bounds of that
entry's own probe. -/
theorem docPairs_inv (ns : List Nirs) (hnd : (docLocs ns).Nodup)
    (n : Nirs) (hn : n ∈ ns) (p : Probe) (hp : n.probe = some p)
    (lenS lenD lenW : Nat) (hl : probeLens p = .ok (lenS, lenD, lenW))
    (d : DataElement) (hd : d ∈ n.data) (ml : MeasurementListEntry)
    (hml : ml ∈ d.measurementList) (pr : String × Code)
    (hpr : pr ∈ docPairs ns) (hloc : pr.1 ∈ mlLocs ml) :
    pr ∈ mlPairs lenS lenD lenW ml := by
  obtain ⟨n2, hn2, hpr2⟩ := (mem_catMaps _ _ _).1 hpr
  -- unpack the nirs that fired the pair
  have hprobe2 : ∃ p2 lens2, n2.probe = some p2 ∧ probeLens p2 = .ok lens2 ∧
      ∃ d2 ∈ n2.data, ∃ ml2 ∈ d2.measurementList,
        pr ∈ mlPairs lens2.1 lens2.2.1 lens2.2.2 ml2 := by
    cases hp2 : n2.probe with
    | none =>
        simp only [nirsPairs, hp2] at hpr2
        cases hpr2
    | some p2 =>
        cases hl2 : probeLens p2 with
        | error e =>
            simp only [nirsPairs, hp2, hl2] at hpr2
            cases hpr2
        | ok lens2 =>
            obtain ⟨la, lb, lc⟩ := lens2
            simp only [nirsPairs, hp2, hl2] at hpr2
            obtain ⟨d2, hd2, hpr3⟩ := (mem_catMaps _ _ _).1 hpr2
            obtain ⟨ml2, hml2, hpr4⟩ := (mem_catMaps _ _ _).1 hpr3
            exact ⟨p2, (la, lb, lc), rfl, hl2, d2, hd2, ml2, hml2, hpr4⟩
  obtain ⟨p2, lens2, hp2, hl2, d2, hd2, ml2, hml2, hpr4⟩ := hprobe2
  have hloc2 : pr.1 ∈ mlLocs ml2 := mlPairs_locs _ _ _ _ _ hpr4
  -- the site occurs once in the whole document, so the two chains agree
  have hnn : n2 = n := by
    refine nodup_catMaps_unique nirsLocs ns hnd n2 n hn2 hn pr.1 ?_ ?_
    · exact mem_nirsLocs_intro n2 p2 hp2 d2 hd2 ml2 hml2 pr.1 hloc2
    · exact mem_nirsLocs_intro n p hp d hd ml hml pr.1 hloc
  subst hnn
  have hndn : (nirsLocs n2).Nodup := nodup_catMaps_each nirsLocs ns hnd n2 hn2
  have hndn2 : (catMaps (fun d => catMaps mlLocs d.measurementList) n2.data).Nodup := by
    revert hndn
    simp only [nirsLocs, hp]
    exact id
  have hdd : d2 = d := by
    refine nodup_catMaps_unique _ n2.data hndn2 d2 d hd2 hd pr.1 ?_ ?_
    · exact (mem_catMaps _ _ _).2 ⟨ml2, hml2, hloc2⟩
    · exact (mem_catMaps _ _ _).2 ⟨ml, hml, hloc⟩
  subst hdd
  have hndd : (catMaps mlLocs d2.measurementList).Nodup :=
    nodup_catMaps_each _ n2.data hndn2 d2 hd2
  have hmm : ml2 = ml :=
    nodup_catMaps_unique mlLocs d2.measurementList hndd ml2 ml hml2 hml pr.1 hloc2 hloc
  subst hmm
  have hpp : p = p2 := by
    rw [hp] at hp2
    exact Option.some.inj hp2
  subst hpp
  rw [hl] at hl2
  have : lens2 = (lenS, lenD, lenW) := (Except.ok.inj hl2).symm
  rw [this] at hpr4
  exact hpr4

/-- Master membership lemma: at any potential site of the pass, the final
result of the overridden Snirf._validate holds a pair exactly when the
pass fired it, provided the sites are pairwise distinct and fresh both in
the incoming result and in the base pass contribution. -/
theorem snirf_validate_mem_iff (base : List (String × Code)) (ns : List Nirs)
    (r out : ValidationResult)
    (hnd : (docLocs ns).Nodup)
    (hfresh : ∀ l ∈ docLocs ns, l ∉ locations r ∧ ∀ pr ∈ base, l ≠ pr.1)
    (hout : Snirf.validate base ns r = .ok out)
    (pr : String × Code) (hsite : pr.1 ∈ docLocs ns) :
    pr ∈ out ↔ pr ∈ docPairs ns := by
  have hchar := snirf_validate_ok_eq base ns r out hout
  obtain ⟨hfr, hfb⟩ := hfresh pr.1 hsite
  rw [hchar]
  have hiff := mem_vrAddAll_iff (base ++ docPairs ns) r pr.1 pr.2 hfr
  rw [show ((pr.1, pr.2) : String × Code) = pr from rfl] at hiff
  rw [hiff]
  rw [List.find?_append]
  rw [find?_none_of_all_ne base pr.1 (fun q hq => fun he => hfb q hq he.symm)]
  rw [Option.none_or]
  constructor
  · intro hfind
    exact List.mem_of_find?_eq_some hfind
  · intro hmem
    have hndp : ((docPairs ns).map Prod.fst).Nodup :=
      List.Nodup.sublist (map_fst_docPairs_sublist ns) hnd
    have := find?_of_mem_nodup (docPairs ns) pr.1 pr.2 hndp (by
      rw [show ((pr.1, pr.2) : String × Code) = pr from rfl]
      exact hmem)
    rw [show ((pr.1, pr.2) : String × Code) = pr from rfl] at this
    exact this

/-- C3: for every Data element MeasurementList entry with a present
sourceIndex, detectorIndex or wavelengthIndex, the document-level
cross-reference pass of the overridden Snirf._validate records the
INVALID_SOURCE_INDEX, INVALID_DETECTOR_INDEX or INVALID_WAVELENGTH_INDEX
diagnostic at the index location of that entry exactly when the index
strictly exceeds the corresponding collection bound of the sibling Probe
(probeLens counts an absent collection as size zero); hence indices from
1 to the bound inclusive are never flagged, and neither are indices that
are zero or negative. -/
theorem crossref_flags_iff (base : List (String × Code)) (ns : List Nirs)
    (r out : ValidationResult) (n : Nirs) (p : Probe) (d : DataElement)
    (ml : MeasurementListEntry) (lenS lenD lenW : Nat)
    (hn : n ∈ ns) (hp : n.probe = some p) (hd : d ∈ n.data)
    (hml : ml ∈ d.measurementList)
    (hlens : probeLens p = .ok (lenS, lenD, lenW))
    (hnd : (docLocs ns).Nodup)
    (hfresh : ∀ l ∈ docLocs ns, l ∉ locations r ∧ ∀ pr ∈ base, l ≠ pr.1)
    (hout : Snirf.validate base ns r = .ok out) :
    (∀ i, ml.sourceIndex = some i →
      ((ml.location ++ "/sourceIndex", Code.INVALID_SOURCE_INDEX) ∈ out ↔ i > (lenS : Int))) ∧
    (∀ i, ml.detectorIndex = some i →
      ((ml.location ++ "/detectorIndex", Code.INVALID_DETECTOR_INDEX) ∈ out ↔ i > (lenD : Int))) ∧
    (∀ i, ml.wavelengthIndex = some i →
      ((ml.location ++ "/wavelengthIndex", Code.INVALID_WAVELENGTH_INDEX) ∈ out ↔ i > (lenW : Int))) := by
  have hsiteS : ml.location ++ "/sourceIndex" ∈ mlLocs ml := by simp [mlLocs]
  have hsiteD : ml.location ++ "/detectorIndex" ∈ mlLocs ml := by simp [mlLocs]
  have hsiteW : ml.location ++ "/wavelengthIndex" ∈ mlLocs ml := by simp [mlLocs]
  refine ⟨?_, ?_, ?_⟩
  · intro i hi
    rw [snirf_validate_mem_iff base ns r out hnd hfresh hout _
      (mem_docLocs_intro ns n hn p hp d hd ml hml _ hsiteS)]
    constructor
    · intro hmem
      have hml2 := docPairs_inv ns hnd n hn p hp lenS lenD lenW hlens d hd ml hml _ hmem hsiteS
      rcases mem_mlPairs_elim lenS lenD lenW ml _ hml2 with ⟨j, h1, h2, h3⟩ | ⟨j, h1, h2, h3⟩ | ⟨j, h1, h2, h3⟩
      · rw [hi] at h1
        rw [Option.some.inj h1]
        exact h2
      · exact absurd (congrArg Prod.snd h3) (by simp)
      · exact absurd (congrArg Prod.snd h3) (by simp)
    · intro hgt
      refine mem_docPairs_intro ns n hn p hp lenS lenD lenW hlens d hd ml hml _ ?_
      unfold mlPairs
      refine List.mem_append_left _ (List.mem_append_left _ ?_)
      rw [hi]
      exact mem_idxPair_intro lenS i _ _ hgt
  · intro i hi
    rw [snirf_validate_mem_iff base ns r out hnd hfresh hout _
      (mem_docLocs_intro ns n hn p hp d hd ml hml _ hsiteD)]
    constructor
    · intro hmem
      have hml2 := docPairs_inv ns hnd n hn p hp lenS lenD lenW hlens d hd ml hml _ hmem hsiteD
      rcases mem_mlPairs_elim lenS lenD lenW ml _ hml2 with ⟨j, h1, h2, h3⟩ | ⟨j, h1, h2, h3⟩ | ⟨j, h1, h2, h3⟩
      · exact absurd (congrArg Prod.snd h3) (by simp)
      · rw [hi] at h1
        rw [Option.some.inj h1]
        exact h2
      · exact absurd (congrArg Prod.snd h3) (by simp)
    · intro hgt
      refine mem_docPairs_intro ns n hn p hp lenS lenD lenW hlens d hd ml hml _ ?_
      unfold mlPairs
      refine List.mem_append_left _ (List.mem_append_right _ ?_)
      rw [hi]
      exact mem_idxPair_intro lenD i _ _ hgt
  · intro i hi
    rw [snirf_validate_mem_iff base ns r out hnd hfresh hout _
      (mem_docLocs_intro ns n hn p hp d hd ml hml _ hsiteW)]
    constructor
    · intro hmem
      have hml2 := docPairs_inv ns hnd n hn p hp lenS lenD lenW hlens d hd ml hml _ hmem hsiteW
      rcases mem_mlPairs_elim lenS lenD lenW ml _ hml2 with ⟨j, h1, h2, h3⟩ | ⟨j, h1, h2, h3⟩ | ⟨j, h1, h2, h3⟩
      · exact absurd (congrArg Prod.snd h3) (by simp)
      · exact absurd (congrArg Prod.snd h3) (by simp)
      · rw [hi] at h1
        rw [Option.some.inj h1]
        exact h2
    · intro hgt
      refine mem_docPairs_intro ns n hn p hp lenS lenD lenW hlens d hd ml hml _ ?_
      unfold mlPairs
      refine List.mem_append_right _ ?_
      rw [hi]
      exact mem_idxPair_intro lenW i _ _ hgt

/-- Witness for C3: a document with one nirs, a probe with bounds
(2, 3, 2) and one entry with sourceIndex 3 (flagged, since 3 exceeds 2),
detectorIndex 3 (not flagged, 3 is within 1..3) and wavelengthIndex 0
(not flagged, zero is never flagged). -/
theorem crossref_flags_iff_witness :
    Snirf.validate [] [⟨some ⟨"/nirs1/probe", some ⟨[2]⟩, some ⟨[3]⟩, some ⟨[2]⟩,
        none, none, none, none, none, none⟩,
      [⟨"/nirs1/data1", none, none,
        [⟨"/nirs1/data1/measurementList1", some 3, some 3, some 0⟩]⟩]⟩] [] =
      .ok [("/nirs1/data1/measurementList1/sourceIndex", Code.INVALID_SOURCE_INDEX)] ∧
    (("/nirs1/data1/measurementList1" ++ "/sourceIndex", Code.INVALID_SOURCE_INDEX) ∈
        ([("/nirs1/data1/measurementList1/sourceIndex", Code.INVALID_SOURCE_INDEX)] :
          ValidationResult) ↔ (3 : Int) > ((2 : Nat) : Int)) ∧
    (("/nirs1/data1/measurementList1" ++ "/detectorIndex", Code.INVALID_DETECTOR_INDEX) ∈
        ([("/nirs1/data1/measurementList1/sourceIndex", Code.INVALID_SOURCE_INDEX)] :
          ValidationResult) ↔ (3 : Int) > ((3 : Nat) : Int)) ∧
    (("/nirs1/data1/measurementList1" ++ "/wavelengthIndex", Code.INVALID_WAVELENGTH_INDEX) ∈
        ([("/nirs1/data1/measurementList1/sourceIndex", Code.INVALID_SOURCE_INDEX)] :
          ValidationResult) ↔ (0 : Int) > ((2 : Nat) : Int)) := by
  have happ := crossref_flags_iff []
    [⟨some ⟨"/nirs1/probe", some ⟨[2]⟩, some ⟨[3]⟩, some ⟨[2]⟩,
        none, none, none, none, none, none⟩,
      [⟨"/nirs1/data1", none, none,
        [⟨"/nirs1/data1/measurementList1", some 3, some 3, some 0⟩]⟩]⟩]
    [] [("/nirs1/data1/measurementList1/sourceIndex", Code.INVALID_SOURCE_INDEX)]
    ⟨some ⟨"/nirs1/probe", some ⟨[2]⟩, some ⟨[3]⟩, some ⟨[2]⟩,
        none, none, none, none, none, none⟩,
      [⟨"/nirs1/data1", none, none,
        [⟨"/nirs1/data1/measurementList1", some 3, some 3, some 0⟩]⟩]⟩
    ⟨"/nirs1/probe", some ⟨[2]⟩, some ⟨[3]⟩, some ⟨[2]⟩,
        none, none, none, none, none, none⟩
    ⟨"/nirs1/data1", none, none,
      [⟨"/nirs1/data1/measurementList1", some 3, some 3, some 0⟩]⟩
    ⟨"/nirs1/data1/measurementList1", some 3, some 3, some 0⟩
    2 3 2
    (by decide) rfl (by decide) (by decide) rfl (by decide) (by decide) rfl
  exact ⟨rfl, happ.1 3 rfl, happ.2.1 3 rfl, happ.2.2 0 rfl⟩

/-- C1 (code bug): MetaDataTags.add with the reserved fixed-schema name
location does not raise.  The dict item store on the instance dictionary
succeeds for any string name, so the except branch of the source that is
meant to reject required names such as location is dead code; the call
returns normally, stores the value and even records location in the
unspecified-names registry, leaving the tag set changed. -/
theorem add_reserved_location_succeeds :
    MetaDataTags.add (V := Nat) ⟨[], []⟩ (.str "location") 5 =
      .ok ⟨[("location", 5)], ["location"]⟩ := by
  rfl

/-- C2 counterexample: after add and a first successful remove of
customTag, the name is still registered as unspecified, yet the repeated
remove fails, and it fails with KeyError from the dict deletion rather
than with the no-unspecified-tag AttributeError rejection. -/
theorem remove_repeated_raises_keyError :
    MetaDataTags.add (V := Nat) ⟨[], []⟩ (.str "customTag") 5 =
      .ok ⟨[("customTag", 5)], ["customTag"]⟩ ∧
    MetaDataTags.remove (V := Nat) ⟨[("customTag", 5)], ["customTag"]⟩ (.str "customTag") =
      .ok ⟨[], ["customTag"]⟩ ∧
    "customTag" ∈ (⟨[], ["customTag"]⟩ : MetaDataTags Nat).unspecified_names ∧
    MetaDataTags.remove (V := Nat) ⟨[], ["customTag"]⟩ (.str "customTag") =
      .error .keyError := by
  refine ⟨rfl, rfl, List.mem_singleton.2 rfl, rfl⟩

/-- C2 (amended): remove with a string name fails precisely when the name
is not in the unspecified-names registry or has no entry in the instance
dict; in the second mode, reachable because a successful remove never
deregisters the name, the failure is a KeyError from the dict deletion,
not the no-unspecified-tag rejection. -/
theorem remove_fails_iff {V : Type} (s : MetaDataTags V) (n : String) :
    ((∃ e, s.remove (.str n) = .error e) ↔
      (n ∉ s.unspecified_names ∨ dictHasKey s.dict n = false)) ∧
    (n ∈ s.unspecified_names → dictHasKey s.dict n = false →
      s.remove (.str n) = .error .keyError) := by
  unfold MetaDataTags.remove
  simp only
  by_cases hreg : n ∈ s.unspecified_names
  · by_cases hk : dictHasKey s.dict n
    · rw [if_pos hreg, if_pos hk]
      constructor
      · constructor
        · rintro ⟨e, he⟩
          cases he
        · rintro (h | h)
          · exact absurd hreg h
          · rw [hk] at h
            cases h
      · intro h1 h2
        rw [hk] at h2
        cases h2
    · rw [if_pos hreg, if_neg hk]
      constructor
      · constructor
        · intro h
          exact Or.inr (Bool.eq_false_iff.2 hk)
        · intro h
          exact ⟨.keyError, rfl⟩
      · intro h1 h2
        rfl
  · rw [if_neg hreg]
    constructor
    · constructor
      · intro h
        exact Or.inl hreg
      · intro h
        exact ⟨.attributeError, rfl⟩
    · intro h1 h2
      exact absurd h1 hreg

/-- Witness for the amended C2 at the state left by the first remove. -/
theorem remove_fails_iff_witness :
    ((∃ e, MetaDataTags.remove (V := Nat) ⟨[], ["customTag"]⟩ (.str "customTag") = .error e) ↔
      ("customTag" ∉ (⟨[], ["customTag"]⟩ : MetaDataTags Nat).unspecified_names ∨
        dictHasKey (⟨[], ["customTag"]⟩ : MetaDataTags Nat).dict "customTag" = false)) ∧
    ("customTag" ∈ (⟨[], ["customTag"]⟩ : MetaDataTags Nat).unspecified_names →
      dictHasKey (⟨[], ["customTag"]⟩ : MetaDataTags Nat).dict "customTag" = false →
      MetaDataTags.remove (V := Nat) ⟨[], ["customTag"]⟩ (.str "customTag") =
        .error .keyError) :=
  remove_fails_iff ⟨[], ["customTag"]⟩ "customTag"

theorem dictHasKey_dictDel {V : Type} (d : List (String × V)) (k : String) :
    dictHasKey (dictDel d k) k = false := by
  unfold dictHasKey dictDel
  rw [Bool.eq_false_iff]
  intro h
  obtain ⟨p, hp, hpk⟩ := List.any_eq_true.1 h
  obtain ⟨hp2, hp3⟩ := List.mem_filter.1 hp
  simp only [decide_eq_true_eq] at hpk hp3
  exact hp3 hpk

theorem registry_mono_runOps {V : Type} (s : MetaDataTags V) (ops : List (TagOp V)) :
    ∀ m ∈ s.unspecified_names, m ∈ (s.runOps ops).unspecified_names := by
  induction ops generalizing s with
  | nil => intro m hm; exact hm
  | cons op ops ih =>
      intro m hm
      exact ih (s.runOp op) m (registry_mono_runOp s op m hm)

/-- C8: the unspecified-names registry only grows under any sequence of
add and remove calls, and a successful remove deletes the dict entry for
the name while keeping the name registered as an unspecified tag. -/
theorem registry_only_grows {V : Type} (s : MetaDataTags V) (ops : List (TagOp V))
    (n : String) (s2 : MetaDataTags V) (hrem : s.remove (.str n) = .ok s2) :
    (∀ m ∈ s.unspecified_names, m ∈ (s.runOps ops).unspecified_names) ∧
    n ∈ s2.unspecified_names ∧ dictHasKey s2.dict n = false := by
  refine ⟨registry_mono_runOps s ops, ?_⟩
  unfold MetaDataTags.remove at hrem
  simp only at hrem
  split at hrem
  · rename_i hreg
    split at hrem
    · cases hrem
      exact ⟨hreg, dictHasKey_dictDel s.dict n⟩
    · cases hrem
  · cases hrem

/-- Witness for C8: remove customTag from a state holding it, then run a
further remove of the same name as the operation sequence. -/
theorem registry_only_grows_witness :
    MetaDataTags.remove (V := Nat) ⟨[("customTag", 5)], ["customTag"]⟩ (.str "customTag") =
      .ok ⟨[], ["customTag"]⟩ ∧
    ((∀ m ∈ (⟨[("customTag", 5)], ["customTag"]⟩ : MetaDataTags Nat).unspecified_names,
        m ∈ (MetaDataTags.runOps (V := Nat) ⟨[("customTag", 5)], ["customTag"]⟩
          [.remove (.str "customTag"), .remove (.str "customTag")]).unspecified_names) ∧
      "customTag" ∈ (⟨[], ["customTag"]⟩ : MetaDataTags Nat).unspecified_names ∧
      dictHasKey (⟨[], ["customTag"]⟩ : MetaDataTags Nat).dict "customTag" = false) :=
  ⟨rfl, registry_only_grows ⟨[("customTag", 5)], ["customTag"]⟩
    [.remove (.str "customTag"), .remove (.str "customTag")] "customTag"
    ⟨[], ["customTag"]⟩ rfl⟩

theorem lookup_contains_eq {V : Type} (es : List (String × V)) (key : String) :
    (es.map Prod.fst).contains key = (es.lookup key).isSome := by
  induction es with
  | nil => rfl
  | cons p es ih =>
      obtain ⟨k, v⟩ := p
      simp only [List.map_cons, List.contains_cons, List.lookup]
      cases hbeq : key == k
      · simp only [Bool.false_or]
        exact ih
      · simp only [Bool.true_or]
        rfl

/-- C10 counterexample: on a closed backend the method does not return
None: the key membership test on the closed handle fails fast. -/
theorem getitem_closed_raises :
    Snirf.getitem (V := Nat) .closed "nirs1" = .error .closedHandleError := by
  rfl

/-- C10 (amended): with an unset backend or an open one, __getitem__
never raises: it returns the entry stored at the key of an open backend
and None when the key is absent or the backend is unset; only the closed
backend makes it fail. -/
theorem getitem_open_or_unset {V : Type} (es : List (String × V)) (key : String) :
    Snirf.getitem (.opened es) key = .ok (es.lookup key) ∧
    Snirf.getitem (V := V) .unset key = .ok none := by
  refine ⟨?_, rfl⟩
  simp only [Snirf.getitem]
  by_cases hc : (es.map Prod.fst).contains key = true
  · rw [if_pos hc]
    rw [lookup_contains_eq] at hc
    obtain ⟨v, hv⟩ := Option.isSome_iff_exists.1 hc
    rw [hv]
  · rw [if_neg hc]
    rw [lookup_contains_eq] at hc
    have hnone : es.lookup key = none := by
      cases h : es.lookup key with
      | none => rfl
      | some v =>
          rw [h] at hc
          exact absurd rfl hc
    rw [hnone]

/-- C9 counterexample: a 1-D series whose length mismatches the time
vector makes DataElement._validate add INVALID_TIME at the time location
into the in-place result and only then hit the uncaught IndexError, so
the raise is not instead of adding a diagnostic. -/
theorem data_validate_adds_then_raises :
    DataElement.validate [] ⟨"/nirs1/data1", some ⟨[1]⟩, some ⟨[5]⟩, []⟩ [] =
      ([("/nirs1/data1/time", Code.INVALID_TIME)], some .indexError) := by
  rfl

theorem mem_vrAdd_cases (r : ValidationResult) (loc : String) (c : Code)
    (pr : String × Code) (h : pr ∈ vrAdd r loc c) : pr ∈ r ∨ pr = (loc, c) := by
  unfold vrAdd at h
  split at h
  · exact Or.inl h
  · rcases List.mem_append.1 h with h | h
    · exact Or.inl h
    · exact Or.inr (List.mem_singleton.1 h)

theorem mem_vrAddAll_cases (ps : List (String × Code)) (r : ValidationResult)
    (pr : String × Code) (h : pr ∈ vrAddAll r ps) : pr ∈ r ∨ pr ∈ ps := by
  induction ps generalizing r with
  | nil => exact Or.inl h
  | cons p ps ih =>
      rcases ih (vrAdd r p.1 p.2) h with h2 | h2
      · rcases mem_vrAdd_cases r p.1 p.2 pr h2 with h3 | h3
        · exact Or.inl h3
        · exact Or.inr (h3 ▸ List.mem_cons_self p ps)
      · exact Or.inr (List.mem_cons_of_mem p h2)

/-- C9 (amended): StimElement._validate is total on present data of any
dimensionality: it never raises, and with present dataLabels and a data
array lacking a second dimension it catches the indexing failure and
records INVALID_DATASET_SHAPE at the data location.  DataElement._validate
on a present series with fewer than two dimensions instead propagates an
uncaught IndexError; it records no shape diagnostic, though it may
already have added INVALID_TIME at the time location to the in-place
result before raising (so the raise is not instead of adding any
diagnostic, as the claim had it). -/
theorem stim_catches_data_raises
    (base : List (String × Code)) (st : StimElement) (dArr dl : NDArray)
    (e : DataElement) (t dts : NDArray) (r : ValidationResult)
    (hst : st.data = some dArr) (hsl : st.dataLabels = some dl)
    (hd1 : dArr.shape.get? 1 = none)
    (hfresh : st.location ++ "/data" ∉ locations (vrAddAll r base))
    (he1 : e.time = some t) (he2 : e.dataTimeSeries = some dts)
    (hlt2 : dts.shape.get? 1 = none) :
    (st.location ++ "/data", Code.INVALID_DATASET_SHAPE) ∈ StimElement.validate base st r ∧
    (DataElement.validate base e r).2 = some PyErr.indexError ∧
    (∀ pr ∈ (DataElement.validate base e r).1,
      pr ∈ vrAddAll r base ∨ pr = (e.location ++ "/time", Code.INVALID_TIME)) := by
  refine ⟨?_, ?_, ?_⟩
  · simp only [StimElement.validate, hst, hsl, hd1]
    exact mem_vrAdd_self _ _ _ hfresh
  · simp only [DataElement.validate, he1, he2]
    cases hg0 : dts.shape.get? 0 with
    | none => rfl
    | some rows =>
        simp only [hlt2]
  · simp only [DataElement.validate, he1, he2]
    cases hg0 : dts.shape.get? 0 with
    | none =>
        intro pr hpr
        exact Or.inl hpr
    | some rows =>
        simp only [hlt2]
        split
        · intro pr hpr
          rcases mem_vrAdd_cases _ _ _ pr hpr with h | h
          · exact Or.inl h
          · exact Or.inr h
        · intro pr hpr
          exact Or.inl hpr

/-- Witness for the amended C9: a stim element with 1-D data of size 3
and matching labels, and a data element with 1-D series and a consistent
time vector. -/
theorem stim_catches_data_raises_witness :
    (⟨[3]⟩ : NDArray).shape.get? 1 = none ∧
    (("/nirs1/stim1" ++ "/data", Code.INVALID_DATASET_SHAPE) ∈
        StimElement.validate [] ⟨"/nirs1/stim1", some ⟨[3]⟩, some ⟨[3]⟩⟩ [] ∧
      (DataElement.validate [] ⟨"/nirs1/data1", some ⟨[2]⟩, some ⟨[2]⟩, []⟩ []).2 =
        some PyErr.indexError ∧
      (∀ pr ∈ (DataElement.validate [] ⟨"/nirs1/data1", some ⟨[2]⟩, some ⟨[2]⟩, []⟩ []).1,
        pr ∈ vrAddAll [] [] ∨ pr = ("/nirs1/data1" ++ "/time", Code.INVALID_TIME))) :=
  ⟨rfl, stim_catches_data_raises [] ⟨"/nirs1/stim1", some ⟨[3]⟩, some ⟨[3]⟩⟩ ⟨[3]⟩ ⟨[3]⟩
    ⟨"/nirs1/data1", some ⟨[2]⟩, some ⟨[2]⟩, []⟩ ⟨[2]⟩ ⟨[2]⟩ []
    rfl rfl rfl (by decide) rfl rfl rfl⟩

theorem labelsBlock_eq (slCode : Code) (p : Probe) (r : ValidationResult) :
    Probe.labelsBlock slCode p r = vrAddAll r (probeSlPair slCode p) := by
  unfold Probe.labelsBlock probeSlPair
  cases p.sourceLabels <;> rfl

theorem posBlock_eq (p : Probe) (r : ValidationResult) :
    Probe.posBlock p r = vrAddAll r (probePosPairs p) := by
  unfold Probe.posBlock probePosPairs
  by_cases h1 : (p.sourcePos2D.isSome && p.detectorPos2D.isSome) = true
  · rw [if_pos h1, if_pos h1]
    rfl
  · rw [if_neg h1, if_neg h1]
    by_cases h2 : (p.sourcePos3D.isSome && p.detectorPos3D.isSome) = true
    · rw [if_pos h2, if_pos h2]
      rfl
    · rw [if_neg h2, if_neg h2]
      rfl

theorem coordBlock_eq (recognized : List String) (p : Probe) (r : ValidationResult) :
    Probe.coordBlock recognized p r = vrAddAll r (probeCoordPairs recognized p) := by
  unfold Probe.coordBlock probeCoordPairs
  cases p.coordinateSystem with
  | none => rfl
  | some cs =>
      dsimp only
      by_cases hcs : cs ∈ recognized
      · rw [if_pos hcs, if_pos hcs]
        rfl
      · rw [if_neg hcs, if_neg hcs]
        cases p.coordinateSystemDescription <;> rfl

theorem probe_validate_eq (recognized : List String) (slCode : Code)
    (base : List (String × Code)) (p : Probe) (r : ValidationResult) :
    Probe.validate recognized slCode base p r =
      vrAddAll r (probePairs recognized slCode p ++ base) := by
  unfold Probe.validate probePairs
  rw [labelsBlock_eq, posBlock_eq, coordBlock_eq]
  rw [vrAddAll_append, vrAddAll_append, vrAddAll_append]

theorem vrLookup_vrAddAll_fresh (ps : List (String × Code)) (r : ValidationResult)
    (l : String) (h : l ∉ locations r) :
    vrLookup (vrAddAll r ps) l = (ps.find? (fun p => p.1 = l)).map Prod.snd := by
  induction ps generalizing r with
  | nil =>
      show vrLookup r l = _
      rw [vrLookup_eq_none r l h]
      rfl
  | cons p ps ih =>
      show vrLookup (vrAddAll (vrAdd r p.1 p.2) ps) l = _
      by_cases hpl : p.1 = l
      · rw [List.find?_cons_of_pos _ (by simp [hpl])]
        have hself : vrLookup (vrAdd r p.1 p.2) l = some p.2 := by
          rw [← hpl]
          exact vrLookup_vrAdd_self r p.1 p.2 (by rw [hpl]; exact h)
        rw [vrLookup_vrAddAll_of_some ps (vrAdd r p.1 p.2) l p.2 hself]
        rfl
      · rw [List.find?_cons_of_neg _ (by simp [hpl])]
        exact ih (vrAdd r p.1 p.2) (not_mem_locations_vrAdd r p.1 l p.2 h (fun he => hpl he.symm))

theorem mem_vrAddAll_iff_nodup (ps : List (String × Code)) (r : ValidationResult)
    (l : String) (c : Code) (hnd : (ps.map Prod.fst).Nodup) (hfresh : l ∉ locations r) :
    (l, c) ∈ vrAddAll r ps ↔ (l, c) ∈ ps := by
  rw [mem_vrAddAll_iff ps r l c hfresh]
  constructor
  · exact fun h => List.mem_of_find?_eq_some h
  · exact fun h => find?_of_mem_nodup ps l c hnd h

theorem probeSlPair_locs_sublist (slCode : Code) (p : Probe) :
    List.Sublist ((probeSlPair slCode p).map Prod.fst) [p.location ++ "/sourceLabels"] := by
  unfold probeSlPair
  cases p.sourceLabels <;> exact List.Sublist.refl _

theorem probePosPairs_locs (p : Probe) :
    (probePosPairs p).map Prod.fst =
      [p.location ++ "/sourcePos2D", p.location ++ "/detectorPos2D",
       p.location ++ "/sourcePos3D", p.location ++ "/detectorPos3D"] := by
  unfold probePosPairs
  by_cases h1 : (p.sourcePos2D.isSome && p.detectorPos2D.isSome) = true
  · rw [if_pos h1]
    rfl
  · rw [if_neg h1]
    by_cases h2 : (p.sourcePos3D.isSome && p.detectorPos3D.isSome) = true
    · rw [if_pos h2]
      rfl
    · rw [if_neg h2]
      rfl

theorem probeCoordPairs_locs_sublist (recognized : List String) (p : Probe) :
    List.Sublist ((probeCoordPairs recognized p).map Prod.fst)
      [p.location ++ "/coordinateSystem", p.location ++ "/coordinateSystemDescription"] := by
  unfold probeCoordPairs
  cases p.coordinateSystem with
  | none => exact List.nil_sublist _
  | some cs =>
      dsimp only
      by_cases hcs : cs ∈ recognized
      · rw [if_pos hcs]
        exact List.nil_sublist _
      · rw [if_neg hcs]
        cases p.coordinateSystemDescription with
        | none => exact List.Sublist.refl _
        | some t =>
            simp only [List.map_cons, List.map_nil]
            exact List.Sublist.cons₂ _ (List.nil_sublist _)

theorem probePairs_locs_nodup (recognized : List String) (slCode : Code) (p : Probe) :
    ((probePairs recognized slCode p).map Prod.fst).Nodup := by
  have hsub : List.Sublist ((probePairs recognized slCode p).map Prod.fst)
      (["/sourceLabels", "/sourcePos2D", "/detectorPos2D", "/sourcePos3D",
        "/detectorPos3D", "/coordinateSystem", "/coordinateSystemDescription"].map
          (fun s => p.location ++ s)) := by
    unfold probePairs
    rw [List.map_append, List.map_append]
    simp only [List.map_cons, List.map_nil]
    show List.Sublist _ (([p.location ++ "/sourceLabels"] ++
      [p.location ++ "/sourcePos2D", p.location ++ "/detectorPos2D",
       p.location ++ "/sourcePos3D", p.location ++ "/detectorPos3D"]) ++
      [p.location ++ "/coordinateSystem", p.location ++ "/coordinateSystemDescription"])
    refine List.Sublist.append (List.Sublist.append (probeSlPair_locs_sublist slCode p) ?_)
      (probeCoordPairs_locs_sublist recognized p)
    rw [probePosPairs_locs]
  refine List.Nodup.sublist hsub ?_
  refine List.Nodup.map ?_ (by decide)
  intro a b hab
  exact strCancelLeft hab

/-- A diagnostic of the Probe override at a fresh location is the one the
result reports there, whatever the base pass adds afterwards. -/
theorem probe_lookup_of_mem_pairs (recognized : List String) (slCode : Code)
    (base : List (String × Code)) (p : Probe) (r : ValidationResult)
    (l : String) (c : Code) (hfresh : l ∉ locations r)
    (hmem : (l, c) ∈ probePairs recognized slCode p) :
    vrLookup (Probe.validate recognized slCode base p r) l = some c := by
  rw [probe_validate_eq, vrAddAll_append]
  refine vrLookup_vrAddAll_of_some base _ l c ?_
  rw [vrLookup_vrAddAll_fresh _ _ _ hfresh]
  rw [find?_of_mem_nodup _ l c (probePairs_locs_nodup recognized slCode p) hmem]
  rfl

/-- C4: when both 2D position arrays are present, Probe validation
reports OK at the 2D source and detector locations and
OPTIONAL_DATASET_MISSING at both 3D locations, regardless of whether the
3D arrays are present too: the 2D-complete branch takes precedence, and
dedup keeps these verdicts against the later base pass. -/
theorem probe_pos2d_precedence (recognized : List String) (slCode : Code)
    (base : List (String × Code)) (p : Probe) (r : ValidationResult)
    (hs2 : p.sourcePos2D.isSome = true) (hd2 : p.detectorPos2D.isSome = true)
    (hfresh : ∀ s : String, p.location ++ s ∉ locations r) :
    vrLookup (Probe.validate recognized slCode base p r) (p.location ++ "/sourcePos2D") =
      some Code.OK ∧
    vrLookup (Probe.validate recognized slCode base p r) (p.location ++ "/detectorPos2D") =
      some Code.OK ∧
    vrLookup (Probe.validate recognized slCode base p r) (p.location ++ "/sourcePos3D") =
      some Code.OPTIONAL_DATASET_MISSING ∧
    vrLookup (Probe.validate recognized slCode base p r) (p.location ++ "/detectorPos3D") =
      some Code.OPTIONAL_DATASET_MISSING := by
  have hpos : ∀ pr ∈ ([(p.location ++ "/sourcePos2D", Code.OK),
      (p.location ++ "/detectorPos2D", Code.OK),
      (p.location ++ "/sourcePos3D", Code.OPTIONAL_DATASET_MISSING),
      (p.location ++ "/detectorPos3D", Code.OPTIONAL_DATASET_MISSING)] : List (String × Code)),
      pr ∈ probePairs recognized slCode p := by
    intro pr hpr
    unfold probePairs
    refine List.mem_append_left _ (List.mem_append_right _ ?_)
    unfold probePosPairs
    rw [if_pos (by rw [hs2, hd2]; rfl)]
    exact hpr
  refine ⟨?_, ?_, ?_, ?_⟩ <;>
    exact probe_lookup_of_mem_pairs recognized slCode base p r _ _ (hfresh _)
      (hpos _ (by simp))

/-- Witness for C4: a probe with all four position arrays present; the 2D
branch still wins. -/
theorem probe_pos2d_precedence_witness :
    (some (⟨[4, 2]⟩ : NDArray)).isSome = true ∧
    (vrLookup (Probe.validate [] .OK []
        ⟨"/nirs1/probe", none, none, none, some ⟨[4, 2]⟩, some ⟨[8, 2]⟩,
          some ⟨[4, 3]⟩, some ⟨[8, 3]⟩, none, none⟩ [])
        ("/nirs1/probe" ++ "/sourcePos2D") = some Code.OK ∧
      vrLookup (Probe.validate [] .OK []
        ⟨"/nirs1/probe", none, none, none, some ⟨[4, 2]⟩, some ⟨[8, 2]⟩,
          some ⟨[4, 3]⟩, some ⟨[8, 3]⟩, none, none⟩ [])
        ("/nirs1/probe" ++ "/detectorPos2D") = some Code.OK ∧
      vrLookup (Probe.validate [] .OK []
        ⟨"/nirs1/probe", none, none, none, some ⟨[4, 2]⟩, some ⟨[8, 2]⟩,
          some ⟨[4, 3]⟩, some ⟨[8, 3]⟩, none, none⟩ [])
        ("/nirs1/probe" ++ "/sourcePos3D") = some Code.OPTIONAL_DATASET_MISSING ∧
      vrLookup (Probe.validate [] .OK []
        ⟨"/nirs1/probe", none, none, none, some ⟨[4, 2]⟩, some ⟨[8, 2]⟩,
          some ⟨[4, 3]⟩, some ⟨[8, 3]⟩, none, none⟩ [])
        ("/nirs1/probe" ++ "/detectorPos3D") = some Code.OPTIONAL_DATASET_MISSING) :=
  ⟨rfl, probe_pos2d_precedence [] .OK []
    ⟨"/nirs1/probe", none, none, none, some ⟨[4, 2]⟩, some ⟨[8, 2]⟩,
      some ⟨[4, 3]⟩, some ⟨[8, 3]⟩, none, none⟩ []
    rfl rfl (fun s h => (List.not_mem_nil _) h)⟩

/-- C5: when neither position pair is complete, each of the four arrays
is reported independently: OK when present, REQUIRED_DATASET_MISSING when
absent. -/
theorem probe_pos_mixed_per_field (recognized : List String) (slCode : Code)
    (base : List (String × Code)) (p : Probe) (r : ValidationResult)
    (h2 : (p.sourcePos2D.isSome && p.detectorPos2D.isSome) = false)
    (h3 : (p.sourcePos3D.isSome && p.detectorPos3D.isSome) = false)
    (hfresh : ∀ s : String, p.location ++ s ∉ locations r) :
    vrLookup (Probe.validate recognized slCode base p r) (p.location ++ "/sourcePos2D") =
      some (if p.sourcePos2D.isSome then Code.OK else Code.REQUIRED_DATASET_MISSING) ∧
    vrLookup (Probe.validate recognized slCode base p r) (p.location ++ "/detectorPos2D") =
      some (if p.detectorPos2D.isSome then Code.OK else Code.REQUIRED_DATASET_MISSING) ∧
    vrLookup (Probe.validate recognized slCode base p r) (p.location ++ "/sourcePos3D") =
      some (if p.sourcePos3D.isSome then Code.OK else Code.REQUIRED_DATASET_MISSING) ∧
    vrLookup (Probe.validate recognized slCode base p r) (p.location ++ "/detectorPos3D") =
      some (if p.detectorPos3D.isSome then Code.OK else Code.REQUIRED_DATASET_MISSING) := by
  have hpos : ∀ pr ∈ ([(p.location ++ "/sourcePos2D",
      if p.sourcePos2D.isSome then Code.OK else Code.REQUIRED_DATASET_MISSING),
      (p.location ++ "/detectorPos2D",
      if p.detectorPos2D.isSome then Code.OK else Code.REQUIRED_DATASET_MISSING),
      (p.location ++ "/sourcePos3D",
      if p.sourcePos3D.isSome then Code.OK else Code.REQUIRED_DATASET_MISSING),
      (p.location ++ "/detectorPos3D",
      if p.detectorPos3D.isSome then Code.OK else Code.REQUIRED_DATASET_MISSING)] :
        List (String × Code)),
      pr ∈ probePairs recognized slCode p := by
    intro pr hpr
    unfold probePairs
    refine List.mem_append_left _ (List.mem_append_right _ ?_)
    unfold probePosPairs
    rw [if_neg (by rw [h2]; exact Bool.false_ne_true),
      if_neg (by rw [h3]; exact Bool.false_ne_true)]
    exact hpr
  refine ⟨?_, ?_, ?_, ?_⟩ <;>
    exact probe_lookup_of_mem_pairs recognized slCode base p r _ _ (hfresh _)
      (hpos _ (by simp))

/-- Witness for C5: 2D source present, 2D detector absent, both 3D
absent: OK at the 2D source location, REQUIRED_DATASET_MISSING at the
other three. -/
theorem probe_pos_mixed_per_field_witness :
    ((some (⟨[4, 2]⟩ : NDArray)).isSome && (none : Option NDArray).isSome) = false ∧
    (vrLookup (Probe.validate [] .OK []
        ⟨"/nirs1/probe", none, none, none, some ⟨[4, 2]⟩, none, none, none, none, none⟩ [])
        ("/nirs1/probe" ++ "/sourcePos2D") =
      some (if (some (⟨[4, 2]⟩ : NDArray)).isSome then Code.OK
        else Code.REQUIRED_DATASET_MISSING) ∧
      vrLookup (Probe.validate [] .OK []
        ⟨"/nirs1/probe", none, none, none, some ⟨[4, 2]⟩, none, none, none, none, none⟩ [])
        ("/nirs1/probe" ++ "/detectorPos2D") =
      some (if (none : Option NDArray).isSome then Code.OK
        else Code.REQUIRED_DATASET_MISSING)) := by
  have h := probe_pos_mixed_per_field [] .OK []
    ⟨"/nirs1/probe", none, none, none, some ⟨[4, 2]⟩, none, none, none, none, none⟩ []
    rfl rfl (fun s hh => (List.not_mem_nil _) hh)
  exact ⟨rfl, h.1, h.2.1⟩

theorem probeSlPair_code (slCode : Code) (p : Probe) (q : String × Code)
    (hq : q ∈ probeSlPair slCode p) :
    q.2 = Code.OPTIONAL_DATASET_MISSING ∨ q.2 = slCode := by
  unfold probeSlPair at hq
  cases hsl2 : p.sourceLabels with
  | none =>
      rw [hsl2] at hq
      exact Or.inl (by rw [List.mem_singleton.1 hq])
  | some a =>
      rw [hsl2] at hq
      exact Or.inr (by rw [List.mem_singleton.1 hq])

theorem probePosPairs_code (p : Probe) (q : String × Code)
    (hq : q ∈ probePosPairs p) : Code.isStructural q.2 = true := by
  unfold probePosPairs at hq
  split at hq
  · simp only [List.mem_cons, List.mem_singleton, List.not_mem_nil, or_false] at hq
    rcases hq with rfl | rfl | rfl | rfl <;> rfl
  · split at hq
    · simp only [List.mem_cons, List.mem_singleton, List.not_mem_nil, or_false] at hq
      rcases hq with rfl | rfl | rfl | rfl <;> rfl
    · simp only [List.mem_cons, List.mem_singleton, List.not_mem_nil, or_false] at hq
      rcases hq with rfl | rfl | rfl | rfl <;>
        first
          | (cases p.sourcePos2D.isSome <;> rfl)
          | (cases p.detectorPos2D.isSome <;> rfl)
          | (cases p.sourcePos3D.isSome <;> rfl)
          | (cases p.detectorPos3D.isSome <;> rfl)

theorem probeCoordPairs_mem (recognized : List String) (p : Probe) (q : String × Code)
    (hq : q ∈ probeCoordPairs recognized p) :
    ∃ cs, p.coordinateSystem = some cs ∧ cs ∉ recognized ∧
      (q = (p.location ++ "/coordinateSystem", Code.UNRECOGNIZED_COORDINATE_SYSTEM) ∨
       (q = (p.location ++ "/coordinateSystemDescription",
          Code.NO_COORDINATE_SYSTEM_DESCRIPTION) ∧
        p.coordinateSystemDescription = none)) := by
  unfold probeCoordPairs at hq
  cases hcs : p.coordinateSystem with
  | none =>
      rw [hcs] at hq
      cases hq
  | some cs =>
      rw [hcs] at hq
      dsimp only at hq
      by_cases hrec : cs ∈ recognized
      · rw [if_pos hrec] at hq
        cases hq
      · rw [if_neg hrec] at hq
        rcases List.mem_cons.1 hq with h | h
        · exact ⟨cs, rfl, hrec, Or.inl h⟩
        · cases hdesc : p.coordinateSystemDescription with
          | none =>
              rw [hdesc] at h
              exact ⟨cs, rfl, hrec, Or.inr ⟨List.mem_singleton.1 h, rfl⟩⟩
          | some t =>
              rw [hdesc] at h
              cases h

theorem probeCoordPairs_mem_cs (recognized : List String) (p : Probe) (cs : String)
    (hcs : p.coordinateSystem = some cs) (hrec : cs ∉ recognized) :
    (p.location ++ "/coordinateSystem", Code.UNRECOGNIZED_COORDINATE_SYSTEM) ∈
      probeCoordPairs recognized p := by
  simp only [probeCoordPairs, hcs]
  rw [if_neg hrec]
  exact List.mem_cons_self _ _

theorem probeCoordPairs_mem_csd (recognized : List String) (p : Probe) (cs : String)
    (hcs : p.coordinateSystem = some cs) (hrec : cs ∉ recognized)
    (hdesc : p.coordinateSystemDescription = none) :
    (p.location ++ "/coordinateSystemDescription", Code.NO_COORDINATE_SYSTEM_DESCRIPTION) ∈
      probeCoordPairs recognized p := by
  simp only [probeCoordPairs, hcs, hdesc]
  rw [if_neg hrec]
  exact List.mem_cons_of_mem _ (List.mem_singleton.2 rfl)

/-- C7 (amended): with a structural base pass and string-array code,
Probe validation holds UNRECOGNIZED_COORDINATE_SYSTEM at the coordinate
system location exactly when a present coordinate system name lies
outside the recognized set, and NO_COORDINATE_SYSTEM_DESCRIPTION at the
description location exactly when additionally the description field is
None (an empty-string description is present and suppresses the code,
unlike the non-empty requirement the claim states); moreover any
occurrence of either coordinate code in the output at any location was
already in the incoming result or came with an unrecognized present
name. -/
theorem coord_system_diagnostics (recognized : List String) (slCode : Code)
    (base : List (String × Code)) (p : Probe) (r : ValidationResult)
    (hsl : Code.isStructural slCode = true)
    (hbase : ∀ pr ∈ base, Code.isStructural pr.2 = true)
    (hfresh : ∀ s : String, p.location ++ s ∉ locations r) :
    (((p.location ++ "/coordinateSystem", Code.UNRECOGNIZED_COORDINATE_SYSTEM) ∈
        Probe.validate recognized slCode base p r) ↔
      (∃ cs, p.coordinateSystem = some cs ∧ cs ∉ recognized)) ∧
    (((p.location ++ "/coordinateSystemDescription",
        Code.NO_COORDINATE_SYSTEM_DESCRIPTION) ∈
        Probe.validate recognized slCode base p r) ↔
      ((∃ cs, p.coordinateSystem = some cs ∧ cs ∉ recognized) ∧
        p.coordinateSystemDescription = none)) ∧
    (∀ l c, (l, c) ∈ Probe.validate recognized slCode base p r →
      (c = Code.UNRECOGNIZED_COORDINATE_SYSTEM ∨ c = Code.NO_COORDINATE_SYSTEM_DESCRIPTION) →
      (l, c) ∈ r ∨ ∃ cs, p.coordinateSystem = some cs ∧ cs ∉ recognized) := by
  have hver := probe_validate_eq recognized slCode base p r
  refine ⟨?_, ?_, ?_⟩
  · rw [hver, vrAddAll_append]
    constructor
    · intro hmem
      rcases mem_vrAddAll_cases base _ _ hmem with h | h
      · have h2 := (mem_vrAddAll_iff_nodup (probePairs recognized slCode p) r _ _
          (probePairs_locs_nodup recognized slCode p) (hfresh _)).1 h
        unfold probePairs at h2
        rcases List.mem_append.1 h2 with h3 | h3
        · rcases List.mem_append.1 h3 with h4 | h4
          · rcases probeSlPair_code slCode p _ h4 with hc | hc
            · exact nomatch hc
            · rw [← hc] at hsl
              exact nomatch hsl
          · exact nomatch (probePosPairs_code p _ h4)
        · obtain ⟨cs, hcs, hrec, hq⟩ := probeCoordPairs_mem recognized p _ h3
          exact ⟨cs, hcs, hrec⟩
      · exact nomatch (hbase _ h)
    · rintro ⟨cs, hcs, hrec⟩
      refine mem_vrAddAll_of_mem base _ _ _ ?_
      refine (mem_vrAddAll_iff_nodup _ r _ _
        (probePairs_locs_nodup recognized slCode p) (hfresh _)).2 ?_
      unfold probePairs
      exact List.mem_append_right _ (probeCoordPairs_mem_cs recognized p cs hcs hrec)
  · rw [hver, vrAddAll_append]
    constructor
    · intro hmem
      rcases mem_vrAddAll_cases base _ _ hmem with h | h
      · have h2 := (mem_vrAddAll_iff_nodup (probePairs recognized slCode p) r _ _
          (probePairs_locs_nodup recognized slCode p) (hfresh _)).1 h
        unfold probePairs at h2
        rcases List.mem_append.1 h2 with h3 | h3
        · rcases List.mem_append.1 h3 with h4 | h4
          · rcases probeSlPair_code slCode p _ h4 with hc | hc
            · exact nomatch hc
            · rw [← hc] at hsl
              exact nomatch hsl
          · exact nomatch (probePosPairs_code p _ h4)
        · obtain ⟨cs, hcs, hrec, hq⟩ := probeCoordPairs_mem recognized p _ h3
          rcases hq with hq | ⟨hq, hdesc⟩
          · exact nomatch (congrArg Prod.snd hq)
          · exact ⟨⟨cs, hcs, hrec⟩, hdesc⟩
      · exact nomatch (hbase _ h)
    · rintro ⟨⟨cs, hcs, hrec⟩, hdesc⟩
      refine mem_vrAddAll_of_mem base _ _ _ ?_
      refine (mem_vrAddAll_iff_nodup _ r _ _
        (probePairs_locs_nodup recognized slCode p) (hfresh _)).2 ?_
      unfold probePairs
      exact List.mem_append_right _ (probeCoordPairs_mem_csd recognized p cs hcs hrec hdesc)
  · intro l c hmem hcc
    have hcstr : Code.isStructural c = false := by
      rcases hcc with rfl | rfl <;> rfl
    rw [hver, vrAddAll_append] at hmem
    rcases mem_vrAddAll_cases base _ _ hmem with h | h
    · rcases mem_vrAddAll_cases (probePairs recognized slCode p) r _ h with h2 | h2
      · exact Or.inl h2
      · unfold probePairs at h2
        rcases List.mem_append.1 h2 with h3 | h3
        · rcases List.mem_append.1 h3 with h4 | h4
          · rcases probeSlPair_code slCode p _ h4 with hc | hc
            · have hc2 : c = Code.OPTIONAL_DATASET_MISSING := hc
              rw [hc2] at hcstr
              exact nomatch hcstr
            · have hc2 : c = slCode := hc
              rw [← hc2] at hsl
              rw [hsl] at hcstr
              exact nomatch hcstr
          · have h5 : Code.isStructural c = true := probePosPairs_code p _ h4
            rw [h5] at hcstr
            exact nomatch hcstr
        · obtain ⟨cs, hcs, hrec, hq⟩ := probeCoordPairs_mem recognized p _ h3
          exact Or.inr ⟨cs, hcs, hrec⟩
    · have h5 : Code.isStructural c = true := hbase _ h
      rw [h5] at hcstr
      exact nomatch hcstr

/-- C7 counterexample: a probe with an unrecognized coordinate system
name and a present empty-string description gets the unrecognized-name
diagnostic but not the missing-description diagnostic, although the claim
requires the latter whenever no non-empty description accompanies the
name. -/
theorem coord_empty_description_not_flagged :
    (("/nirs1/probe/coordinateSystem", Code.UNRECOGNIZED_COORDINATE_SYSTEM) ∈
      Probe.validate ["ACPC"] .OK [] ⟨"/nirs1/probe", none, none, none, none, none,
        none, none, some "MyCustomSpace", some ""⟩ []) ∧
    (("/nirs1/probe/coordinateSystemDescription", Code.NO_COORDINATE_SYSTEM_DESCRIPTION) ∉
      Probe.validate ["ACPC"] .OK [] ⟨"/nirs1/probe", none, none, none, none, none,
        none, none, some "MyCustomSpace", some ""⟩ []) := by
  constructor
  · decide
  · decide

/-- Witness for the amended C7: an unrecognized name with absent
description gets both codes; the freshness and structural hypotheses are
discharged on the empty result and base. -/
theorem coord_system_diagnostics_witness :
    Code.isStructural Code.OK = true ∧
    ((("/nirs1/probe" ++ "/coordinateSystem", Code.UNRECOGNIZED_COORDINATE_SYSTEM) ∈
        Probe.validate ["ACPC"] .OK [] ⟨"/nirs1/probe", none, none, none, none, none,
          none, none, some "MyCustomSpace", none⟩ []) ↔
      (∃ cs, (⟨"/nirs1/probe", none, none, none, none, none,
          none, none, some "MyCustomSpace", none⟩ : Probe).coordinateSystem = some cs ∧
        cs ∉ ["ACPC"])) :=
  ⟨rfl, (coord_system_diagnostics ["ACPC"] .OK []
    ⟨"/nirs1/probe", none, none, none, none, none, none, none, some "MyCustomSpace", none⟩ []
    rfl (fun pr hpr => absurd hpr (List.not_mem_nil _))
    (fun s h => (List.not_mem_nil _) h)).1⟩

theorem strAppendNeSelf (l s : String) (hs : s.data ≠ []) : l ++ s ≠ l := by
  intro h
  have h2 : l.data ++ s.data = l.data := congrArg String.data h
  have h4 : l.data.length + s.data.length = l.data.length := by
    have := congrArg List.length h2
    simpa using this
  have h3 : s.data.length = 0 := by omega
  exact hs (List.eq_nil_of_length_eq_zero h3)

/-- C6: for a Data element with both time and series present and a
two-dimensional series, validation returns without raising, adds
INVALID_TIME at the time location exactly when the time length differs
from the row dimension, and adds exactly one INVALID_MEASUREMENTLIST at
the element location exactly when the MeasurementList length differs from
the column dimension; matched lengths produce neither diagnostic. -/
theorem data_time_ml_diagnostics
    (base : List (String × Code)) (e : DataElement) (t dts : NDArray)
    (rows cols : Nat) (rest : List Nat) (r : ValidationResult)
    (ht : e.time = some t) (hdts : e.dataTimeSeries = some dts)
    (hshape : dts.shape = rows :: cols :: rest)
    (hnd : (locations r).Nodup)
    (hfresh1 : e.location ++ "/time" ∉ locations (vrAddAll r base))
    (hfresh2 : e.location ∉ locations (vrAddAll r base)) :
    (DataElement.validate base e r).2 = none ∧
    vrLookup (DataElement.validate base e r).1 (e.location ++ "/time") =
      (if t.size ≠ rows then some Code.INVALID_TIME else none) ∧
    diagCount (DataElement.validate base e r).1 e.location Code.INVALID_MEASUREMENTLIST =
      (if e.measurementList.length ≠ cols then 1 else 0) := by
  have hne : e.location ++ "/time" ≠ e.location := strAppendNeSelf _ _ (by decide)
  have hndb : (locations (vrAddAll r base)).Nodup := nodup_locations_vrAddAll base r hnd
  simp only [DataElement.validate, ht, hdts, hshape, List.get?]
  by_cases hts : t.size ≠ rows
  · rw [if_pos hts, if_pos hts]
    by_cases hml : e.measurementList.length ≠ cols
    · rw [if_pos hml, if_pos hml]
      refine ⟨trivial, ?_, ?_⟩
      · rw [vrLookup_vrAdd_of_ne _ _ _ _ hne]
        exact vrLookup_vrAdd_self _ _ _ hfresh1
      · have hloc2 : e.location ∉ locations (vrAdd (vrAddAll r base)
            (e.location ++ "/time") Code.INVALID_TIME) :=
          not_mem_locations_vrAdd _ _ _ _ hfresh2 (fun hh => hne hh.symm)
        refine diagCount_eq_one _ _ _ ?_ (mem_vrAdd_self _ _ _ hloc2)
        exact nodup_locations_vrAdd _ _ _ (nodup_locations_vrAdd _ _ _ hndb)
    · rw [if_neg hml, if_neg hml]
      refine ⟨trivial, vrLookup_vrAdd_self _ _ _ hfresh1, ?_⟩
      refine diagCount_eq_zero _ _ _ ?_
      intro hmem
      have hloc2 : e.location ∉ locations (vrAdd (vrAddAll r base)
          (e.location ++ "/time") Code.INVALID_TIME) :=
        not_mem_locations_vrAdd _ _ _ _ hfresh2 (fun hh => hne hh.symm)
      exact hloc2 (mem_locations_of_mem _ _ _ hmem)
  · rw [if_neg hts, if_neg hts]
    by_cases hml : e.measurementList.length ≠ cols
    · rw [if_pos hml, if_pos hml]
      refine ⟨trivial, ?_, ?_⟩
      · rw [vrLookup_vrAdd_of_ne _ _ _ _ hne]
        exact vrLookup_eq_none _ _ hfresh1
      · refine diagCount_eq_one _ _ _ ?_ (mem_vrAdd_self _ _ _ hfresh2)
        exact nodup_locations_vrAdd _ _ _ hndb
    · rw [if_neg hml, if_neg hml]
      refine ⟨trivial, vrLookup_eq_none _ _ hfresh1, ?_⟩
      refine diagCount_eq_zero _ _ _ ?_
      intro hmem
      exact hfresh2 (mem_locations_of_mem _ _ _ hmem)

/-- Witness for C6: time of length 100 over a series of shape (100, 5)
with a MeasurementList of length 4: no raise, no INVALID_TIME, and
exactly one INVALID_MEASUREMENTLIST at the element location. -/
theorem data_time_ml_diagnostics_witness :
    (⟨[100, 5]⟩ : NDArray).shape = 100 :: 5 :: [] ∧
    ((DataElement.validate [] ⟨"/nirs1/data1", some ⟨[100]⟩, some ⟨[100, 5]⟩,
        List.replicate 4 ⟨"/nirs1/data1/measurementList1", none, none, none⟩⟩ []).2 = none ∧
      vrLookup (DataElement.validate [] ⟨"/nirs1/data1", some ⟨[100]⟩, some ⟨[100, 5]⟩,
          List.replicate 4 ⟨"/nirs1/data1/measurementList1", none, none, none⟩⟩ []).1
        ("/nirs1/data1" ++ "/time") =
      (if (⟨[100]⟩ : NDArray).size ≠ 100 then some Code.INVALID_TIME else none) ∧
      diagCount (DataElement.validate [] ⟨"/nirs1/data1", some ⟨[100]⟩, some ⟨[100, 5]⟩,
          List.replicate 4 ⟨"/nirs1/data1/measurementList1", none, none, none⟩⟩ []).1
        "/nirs1/data1" Code.INVALID_MEASUREMENTLIST =
      (if (List.replicate 4
          (⟨"/nirs1/data1/measurementList1", none, none, none⟩ : MeasurementListEntry)).length ≠ 5
        then 1 else 0)) :=
  ⟨rfl, data_time_ml_diagnostics [] ⟨"/nirs1/data1", some ⟨[100]⟩, some ⟨[100, 5]⟩,
      List.replicate 4 ⟨"/nirs1/data1/measurementList1", none, none, none⟩⟩
    ⟨[100]⟩ ⟨[100, 5]⟩ 100 5 [] [] rfl rfl rfl List.nodup_nil
    (by decide) (by decide)⟩
